import Mathlib

/-!
The Python binding over libgettextpo: `src/pygettextpo/gettextpo.c`.

A shallow embedding of the binding layer.  The binding marshals values between
Python and libgettextpo and turns the callbacks of the native error handler
into Python exceptions.

Conventions of the embedding.

* C strings (`const char *`, possibly `NULL`) are `Option String`.
* Native handles (`po_file_t`, `po_message_iterator_t`, `po_message_t`) and
  Python object pointers are `Option Nat`, `none` being `NULL`.
* libgettextpo itself is an external library: its functions are the fields of
  `LibGettextPo`, over an abstract native heap `σ`.  A native function that
  reports through the `xerror` callback is given by a `NativeRun`: the callbacks
  it issues, in order, and the value it returns when it runs to its end.
* `setjmp`/`longjmp` is explicit control flow: `error_handler_xerror` says
  whether it returned or jumped, and a jump abandons the rest of the native run.
* Reference counts are not part of the embedding.
* A function that does not return (a `NULL` dereference, waiting for a lock that
  is never released) has result `none`.
-/

namespace Gettextpo

/-! ## Python values and exceptions -/

/-- Python objects as far as the binding tells them apart. -/
inductive PyObject where
  /-- The C `Py_None` -/
  | None
  /-- a `bytes` object with the given buffer -/
  | bytes (buffer : String)
  /-- a `str` object -/
  | unicode (text : String)
  /-- a `str` object that holds a lone surrogate: it has no UTF-8 encoding, and
  no `String` is its text -/
  | surrogate_str (id : Nat)
  /-- any other object (an `int`, a `list`, ...) -/
  | object (id : Nat)
  deriving DecidableEq, Repr

/-- One element of `error_list`: the tuple built by `Py_BuildValue("(siO)", ...)`. -/
abbrev ErrorTuple := String × Int × String

/-- Python exceptions set by the binding. -/
inductive PyErr where
  /-- raised by the CPython API itself (argument parsing, string conversion) -/
  | TypeError
  | ValueError (message : String)
  | RuntimeError (message : String)
  /-- an instance of `gettextpo.error` with its `error_list` attribute -/
  | gettextpo_error (message : String) (error_list : List ErrorTuple)
  | StopIteration
  /-- raised by `PyUnicode_AsUTF8String` for a `str` with a lone surrogate -/
  | UnicodeEncodeError
  /-- raised by `PyArg_ParseTuple` for an `int` outside the range of a C `int` -/
  | OverflowError
  deriving DecidableEq, Repr

/-- Result of a binding function: a value, or `NULL`/`-1` with an exception set. -/
inductive PyResult (α : Type) where
  | ok (value : α)
  | raise (exc : PyErr)
  deriving DecidableEq, Repr

/-- The C `strlen`: the number of bytes of a C string. -/
def strlen (s : String) : Nat := s.utf8ByteSize

/-- The C string a `char *` into a buffer denotes: the bytes before the first NUL. -/
def c_str (buffer : String) : String :=
  String.mk (buffer.data.takeWhile (fun c => c ≠ Char.ofNat 0))

/-- The C `PyBytes_Check` -/
def PyBytes_Check : PyObject → Bool
  | .bytes _ => true
  | _ => false

/-- The C `PyUnicode_FromObject`: a `str` is returned as it is, anything else is a
`TypeError` (`NULL`). -/
def PyUnicode_FromObject : PyObject → PyResult PyObject
  | .unicode t => .ok (.unicode t)
  | .surrogate_str n => .ok (.surrogate_str n)
  | _ => .raise .TypeError

/-- The C `PyUnicode_AsUTF8String`: the UTF-8 encoding of a `str` as a `bytes` object;
a `str` with a lone surrogate cannot be encoded and gives `UnicodeEncodeError`. -/
def PyUnicode_AsUTF8String : PyObject → PyResult PyObject
  | .unicode t => .ok (.bytes t)
  | .surrogate_str _ => .raise .UnicodeEncodeError
  | _ => .raise .TypeError

/-- The C `PyBytes_AsString`: pointer to the buffer of a `bytes` object, read as a C
string. -/
def PyBytes_AsString : PyObject → Option String
  | .bytes b => some (c_str b)
  | _ => none

/-- The C `get_pybytes_from_pyobject` (gettextpo.c:53): a `bytes` object is returned
unchanged, anything else is converted to `str` and encoded as UTF-8; `raise` is
`NULL` with the exception set. -/
def get_pybytes_from_pyobject (object : PyObject) : PyResult PyObject :=
  if PyBytes_Check object then
    .ok object
  else
    match PyUnicode_FromObject object with
    | .raise exc => .raise exc
    | .ok unicode => PyUnicode_AsUTF8String unicode

/-- The constant `INT_MIN` of `limits.h` for a 32-bit `int`. -/
def INT_MIN : Int := -2147483648

/-- The constant `INT_MAX` of `limits.h` for a 32-bit `int`. -/
def INT_MAX : Int := 2147483647

/-! ## The native library -/

abbrev po_file_t := Option Nat
abbrev po_message_iterator_t := Option Nat
abbrev po_message_t := Option Nat

/-- The C `PO_SEVERITY_WARNING` of `gettext-po.h`. -/
def PO_SEVERITY_WARNING : Int := 0
/-- The C `PO_SEVERITY_ERROR` of `gettext-po.h`. -/
def PO_SEVERITY_ERROR : Int := 1
/-- The C `PO_SEVERITY_FATAL_ERROR` of `gettext-po.h`. -/
def PO_SEVERITY_FATAL_ERROR : Int := 2

/-- The arguments of one call of the `xerror` callback. -/
structure XerrorCall where
  severity : Int
  message : po_message_t
  filename : Option String
  lineno : Nat
  column : Nat
  multiline_p : Int
  message_text : String
  deriving DecidableEq, Repr

/-- What a native function that takes the error handler does, as far as the
binding can see: the `xerror` callbacks it issues, in order, and the value it
returns if no callback jumps out of it. -/
structure NativeRun (ρ : Type) where
  xerrors : List XerrorCall
  result : ρ

/-- The functions of libgettextpo that the binding calls on messages and
iterators, over a native heap `σ`. -/
structure LibGettextPo (σ : Type) where
  po_message_msgid : σ → po_message_t → Option String
  po_message_msgid_plural : σ → po_message_t → Option String
  po_message_msgstr : σ → po_message_t → Option String
  po_message_set_msgid_plural : σ → po_message_t → String → σ
  po_message_set_msgstr_plural : σ → po_message_t → Int → String → σ
  po_message_insert : σ → po_message_iterator_t → po_message_t → σ

/-! ## Objects of the binding -/

/-- The C `PyPoFile` (gettextpo.c:21). -/
structure PyPoFile where
  pofile : po_file_t
  deriving DecidableEq, Repr

/-- The C `PyPoMessageIterator` (gettextpo.c:27): `pofile` points to the `PyPoFile`
the iterator was made from; `py_po_file_iter` (gettextpo.c:229) sets it to that
object, so it is not `NULL`. -/
structure PyPoMessageIterator where
  iter : po_message_iterator_t
  pofile : Nat
  deriving DecidableEq, Repr

/-- The C `PyPoMessage` (gettextpo.c:34): `pofile` is the owner reference, `NULL` for
a message that belongs to no PO file. -/
structure PyPoMessage where
  msg : po_message_t
  pofile : Option Nat
  deriving DecidableEq, Repr

/-! ## Process state of the binding -/

/-- The C `ErrorClosure` (gettextpo.c:79).  The `jmp_buf` is the control flow of
`deliver`. -/
structure ErrorClosure where
  error_list : List ErrorTuple
  error_string : String
  deriving DecidableEq, Repr

/-- Things the binding does that are visible outside it. -/
inductive Event where
  | acquire_lock
  | release_lock
  | call_po_file_read (filename : String)
  | call_po_file_create
  | call_po_file_write (pofile : po_file_t) (filename : String)
  | call_po_message_check_format (msg : po_message_t)
  | call_po_message_insert (iter : po_message_iterator_t) (msg : po_message_t)
  | call_po_message_set_msgstr_plural (msg : po_message_t) (index : Int) (msgstr : String)
  | call_setter (msg : po_message_t) (value : String)
  | stderr (text : String)
  deriving DecidableEq, Repr

/-- The static variables `error_closure` and `error_closure_lock`
(gettextpo.c:95), and the log of events.  `error_closure` is the pointer
together with the closure it points to. -/
structure Globals where
  error_closure : Option ErrorClosure
  error_closure_lock : Bool
  events : List Event
  deriving DecidableEq, Repr

/-- Appends an event to the log. -/
def Globals.log (g : Globals) (e : Event) : Globals :=
  { g with events := g.events ++ [e] }

/-- The C `PyThread_acquire_lock(error_closure_lock, WAIT_LOCK)`: waits until the lock
is free; with the lock held and nobody to release it, it never returns. -/
def PyThread_acquire_lock (g : Globals) : Option Globals :=
  if g.error_closure_lock then none
  else some ({ g with error_closure_lock := true }.log .acquire_lock)

/-- The C `PyThread_release_lock(error_closure_lock)` -/
def PyThread_release_lock (g : Globals) : Globals :=
  { g with error_closure_lock := false }.log .release_lock

/-! ## The error handler -/

/-- The C `PY_SSIZE_T_MAX` on a 64-bit platform. -/
def PY_SSIZE_T_MAX : Nat := 2 ^ 63 - 1

/-- Decoding of the first `size` bytes of a UTF-8 text with the `replace` error
handler: a character cut by the limit becomes U+FFFD. -/
def decodePrefix : List Char → Nat → List Char
  | [], _ => []
  | c :: cs, size =>
    if size = 0 then []
    else if c.utf8Size ≤ size then c :: decodePrefix cs (size - c.utf8Size)
    else [Char.ofNat 0xFFFD]

/-- The C `PyUnicode_DecodeUTF8(s, size, "replace")` for a C string `s` holding UTF-8. -/
def PyUnicode_DecodeUTF8 (s : String) (size : Nat) : String :=
  if strlen s ≤ size then s else String.mk (decodePrefix s.data size)

/-- The `str` object built at gettextpo.c:106-112 from `message_text`. -/
def xerror_str (message_text : String) : String :=
  let size := strlen message_text
  let size := if size > PY_SSIZE_T_MAX then PY_SSIZE_T_MAX else size
  PyUnicode_DecodeUTF8 message_text size

/-- How the handler leaves. -/
inductive HandlerExit where
  | returned
  | longjmp
  deriving DecidableEq, Repr

/-- The C `error_handler_xerror` (gettextpo.c:98).  With `error_closure == NULL` the
handler dereferences `NULL`: no result. -/
def error_handler_xerror (g : Globals) (d : XerrorCall) : Option (Globals × HandlerExit) :=
  let str := xerror_str d.message_text
  match g.error_closure with
  | none => none
  | some closure =>
    -- store the errors in a list, and as a string
    let error_list := closure.error_list ++
      [((if d.severity = PO_SEVERITY_WARNING then "warning" else "error"), (0 : Int), str)]
    let error_string :=
      if closure.error_string.length ≠ 0 then closure.error_string ++ "\n" ++ str
      else str
    let g1 := { g with error_closure := some { error_list := error_list, error_string := error_string } }
    -- if it is a fatal error, we are not meant to return
    if d.severity = PO_SEVERITY_FATAL_ERROR then
      some (g1.log (.stderr "error_handler_error: severity == PO_SEVERITY_FATAL_ERROR, longjmp'ing out\n"),
        .longjmp)
    else
      some (g1, .returned)

/-- The native function calling the handler for each of its diagnostics in
turn: a `longjmp` abandons the diagnostics that are left. -/
def deliver (g : Globals) : List XerrorCall → Option (Globals × HandlerExit)
  | [] => some (g, .returned)
  | d :: ds =>
    match error_handler_xerror g d with
    | none => none
    | some (g1, .longjmp) => some (g1, .longjmp)
    | some (g1, .returned) => deliver g1 ds

/-! ## Collecting diagnostics -/

/-- The block that `pypo_file_init` (gettextpo.c:158-169), `pypo_file_write`
(252-263) and `pypo_message_check_format` (699-710) share word for word: make
an empty closure, take the lock, point `error_closure` at the closure, run the
native function under `setjmp`, reset `error_closure`, release the lock.
Returns the closure, how the native function was left, and the globals. -/
def error_section (g : Globals) (call : Event) (xerrors : List XerrorCall) :
    Option (ErrorClosure × HandlerExit × Globals) :=
  let closure : ErrorClosure := { error_list := [], error_string := "" }
  match PyThread_acquire_lock g with
  | none => none
  | some g1 =>
    let g2 := { g1 with error_closure := some closure }
    -- if (setjmp(closure.env) == 0) the native function is called
    match deliver (g2.log call) xerrors with
    | none => none
    | some (g3, exit) =>
      -- `closure` is the variable that `error_closure` points to
      let closure := g3.error_closure.getD closure
      let g4 := { g3 with error_closure := none }
      some (closure, exit, PyThread_release_lock g4)

/-- The block that follows in the three functions (gettextpo.c:171-183,
265-278, 712-725): with a non-empty `error_string` a `gettextpo.error` is set,
its argument the string and its `error_list` the list. -/
def closure_result (closure : ErrorClosure) : PyResult Unit :=
  if closure.error_string.length ≠ 0 then
    .raise (.gettextpo_error closure.error_string closure.error_list)
  else
    .ok ()

/-! ## PoFile -/

/-- The C `pypo_file_init` (gettextpo.c:143).  `args` is what `PyArg_ParseTupleAndKeywords`
with format `|z` yields: `none` when it fails, `some none` for no file name (or
`None`), `some (some filename)` otherwise. -/
def pypo_file_init (self : PyPoFile) (args : Option (Option String))
    (po_file_read : String → NativeRun po_file_t) (po_file_create : po_file_t)
    (g : Globals) : Option (PyResult Unit × PyPoFile × Globals) :=
  match args with
  | none => some (.raise .TypeError, self, g)
  | some filename =>
    let body : Option (PyResult Unit × PyPoFile × Globals) :=
      match filename with
      | some filename =>
        let run := po_file_read filename
        match error_section g (.call_po_file_read filename) run.xerrors with
        | none => none
        | some (closure, exit, g1) =>
          -- the assignment to self->pofile is skipped by a longjmp
          let self1 : PyPoFile :=
            match exit with
            | .returned => { self with pofile := run.result }
            | .longjmp => self
          some (closure_result closure, self1, g1)
      | none =>
        some (.ok (), { self with pofile := po_file_create }, g.log .call_po_file_create)
    match body with
    | none => none
    | some (ret, self1, g1) =>
      if ret = .ok () ∧ self1.pofile = none then
        some (.raise (.RuntimeError "could not create PoFile object"), self1, g1)
      else
        some (ret, self1, g1)

/-- The C `pypo_file_write` (gettextpo.c:242).  `args` is what `PyArg_ParseTuple` with
format `s` yields. -/
def pypo_file_write (self : PyPoFile) (args : Option String)
    (po_file_write : po_file_t → String → NativeRun Unit) (g : Globals) :
    Option (PyResult Unit × Globals) :=
  match args with
  | none => some (.raise .TypeError, g)
  | some filename =>
    let run := po_file_write self.pofile filename
    match error_section g (.call_po_file_write self.pofile filename) run.xerrors with
    | none => none
    | some (closure, _, g1) => some (closure_result closure, g1)

/-! ## PoMessageIterator -/

/-- The C `pypo_message_iterator_insert` (gettextpo.c:409).  `args` is what
`PyArg_ParseTuple` with format `O!` and `PyPoMessage_Type` yields.  Returns the
result, the message object after the call, and the native heap and globals. -/
def pypo_message_iterator_insert {σ : Type} (L : LibGettextPo σ)
    (self : PyPoMessageIterator) (args : Option PyPoMessage) (s : σ) (g : Globals) :
    PyResult Unit × Option PyPoMessage × σ × Globals :=
  match args with
  | none => (.raise .TypeError, none, s, g)
  | some msg =>
    if msg.pofile ≠ none then
      (.raise (.ValueError "message already a member of a PO file"), some msg, s, g)
    else
      let s1 := L.po_message_insert s self.iter msg.msg
      let g1 := g.log (.call_po_message_insert self.iter msg.msg)
      (.ok (), some { msg with pofile := some self.pofile }, s1, g1)

/-! ## PoMessage -/

/-- The C `_message_set_field` (gettextpo.c:530).  `args` is what `PyArg_ParseTuple`
with format `O` yields; `setter` is the native setter passed in. -/
def _message_set_field {σ : Type} (self : PyPoMessage) (args : Option PyObject)
    (setter : σ → po_message_t → String → σ) (s : σ) (g : Globals) :
    PyResult Unit × σ × Globals :=
  match args with
  | none => (.raise .TypeError, s, g)
  | some object =>
    if object = .None then
      (.ok (), setter s self.msg "", g.log (.call_setter self.msg ""))
    else
      match get_pybytes_from_pyobject object with
      | .raise exc => (.raise exc, s, g)
      | .ok string =>
        -- `string` is a `bytes` object, for which `PyBytes_AsString` does not fail
        match PyBytes_AsString string with
        | none => (.raise .TypeError, s, g)
        | some value => (.ok (), setter s self.msg value, g.log (.call_setter self.msg value))

/-- The C `pypo_message_set_msgid_plural` (gettextpo.c:583). -/
def pypo_message_set_msgid_plural {σ : Type} (L : LibGettextPo σ) (self : PyPoMessage)
    (args : Option PyObject) (s : σ) (g : Globals) : PyResult Unit × σ × Globals :=
  _message_set_field self args L.po_message_set_msgid_plural s g

/-- The C `pypo_message_set_msgstr_plural` (gettextpo.c:607).  `args` is the
argument tuple as `PyArg_ParseTuple` with format `iO` sees it: `none` when it is
not an `int` and an object, else the `int` and the object; an `int` outside the
range of a C `int` makes the parsing fail with `OverflowError`. -/
def pypo_message_set_msgstr_plural {σ : Type} (L : LibGettextPo σ) (self : PyPoMessage)
    (args : Option (Int × PyObject)) (s : σ) (g : Globals) : PyResult Unit × σ × Globals :=
  match args with
  | none => (.raise .TypeError, s, g)
  | some (index, object) =>
    if index < INT_MIN ∨ INT_MAX < index then
      (.raise .OverflowError, s, g)
    else if L.po_message_msgid_plural s self.msg = none then
      (.raise (.ValueError "can not set plural msgstr with no plural msgid"), s, g)
    else if object = .None then
      (.ok (), L.po_message_set_msgstr_plural s self.msg index "",
        g.log (.call_po_message_set_msgstr_plural self.msg index ""))
    else
      match get_pybytes_from_pyobject object with
      | .raise exc => (.raise exc, s, g)
      | .ok string =>
        -- `string` is a `bytes` object, for which `PyBytes_AsString` does not fail
        match PyBytes_AsString string with
        | none => (.raise .TypeError, s, g)
        | some msgstr =>
          (.ok (), L.po_message_set_msgstr_plural s self.msg index msgstr,
            g.log (.call_po_message_set_msgstr_plural self.msg index msgstr))

/-- The C `pypo_message_check_format` (gettextpo.c:682).  The function takes no
arguments (`METH_NOARGS`). -/
def pypo_message_check_format {σ : Type} (L : LibGettextPo σ) (self : PyPoMessage)
    (po_message_check_format : po_message_t → NativeRun Unit) (s : σ) (g : Globals) :
    Option (PyResult Unit × Globals) :=
  if L.po_message_msgid s self.msg = none ∨
      (L.po_message_msgid s self.msg).map strlen = some 0 ∨
      L.po_message_msgstr s self.msg = none ∨
      (L.po_message_msgstr s self.msg).map strlen = some 0 then
    some (.ok (), g)
  else
    let run := po_message_check_format self.msg
    match error_section g (.call_po_message_check_format self.msg) run.xerrors with
    | none => none
    | some (closure, _, g1) => some (closure_result closure, g1)

/-! ## A small instance of the native library

The theorems below hold for every `LibGettextPo`.  This instance, which follows
the documented behaviour of libgettextpo on a heap of messages and one message
list, serves to evaluate the binding on concrete inputs. -/

/-- A native message. -/
structure NativeMessage where
  msgid : Option String
  msgid_plural : Option String
  msgstr : Option String
  msgstr_plural : List String
  deriving DecidableEq, Repr

/-- A native heap: the messages (handle `n` is `messages[n]`), and one message
list with the position of its iterator. -/
structure NativeHeap where
  messages : List NativeMessage
  catalog : List po_message_t
  index : Nat
  deriving DecidableEq, Repr

/-- The message behind a handle. -/
def NativeHeap.message (h : NativeHeap) : po_message_t → Option NativeMessage
  | none => none
  | some n => h.messages.get? n

/-- Applies `f` to the message behind a handle. -/
def NativeHeap.update (h : NativeHeap) (msg : po_message_t)
    (f : NativeMessage → NativeMessage) : NativeHeap :=
  match msg with
  | none => h
  | some n => { h with messages := h.messages.modify f n }

/-- Replaces element `index` of the plural forms, padding with empty forms. -/
def setPlural : List String → Nat → String → List String
  | [], 0, v => [v]
  | [], n + 1, v => "" :: setPlural [] n v
  | _ :: xs, 0, v => v :: xs
  | x :: xs, n + 1, v => x :: setPlural xs n v

/-- The instance. -/
def nativeLib : LibGettextPo NativeHeap where
  po_message_msgid h msg := (h.message msg).bind (fun m => m.msgid)
  po_message_msgid_plural h msg := (h.message msg).bind (fun m => m.msgid_plural)
  po_message_msgstr h msg := (h.message msg).bind (fun m => m.msgstr)
  po_message_set_msgid_plural h msg v := h.update msg (fun m => { m with msgid_plural := some v })
  po_message_set_msgstr_plural h msg index v :=
    if 0 ≤ index then
      h.update msg (fun m =>
        if m.msgid_plural = none then m
        else { m with msgstr_plural := setPlural m.msgstr_plural index.toNat v })
    else h
  po_message_insert h _ msg :=
    { h with catalog := h.catalog.take h.index ++ [msg] ++ h.catalog.drop h.index,
             index := h.index + 1 }

/-- A fresh message as `po_message_create` makes it. -/
def freshMessage : NativeMessage :=
  { msgid := none, msgid_plural := none, msgstr := some "", msgstr_plural := [] }

/-- A heap with one fresh message (handle 0) and an empty message list. -/
def heap0 : NativeHeap := { messages := [freshMessage], catalog := [], index := 0 }

/-- The heap after `set_msgid_plural("files")` on the message of `heap0`. -/
def heap1 : NativeHeap :=
  { messages := [{ freshMessage with msgid_plural := some "files" }], catalog := [], index := 0 }

/-- A fatal diagnostic with a location and a text. -/
def fatal_at_line_3 : XerrorCall :=
  { severity := PO_SEVERITY_FATAL_ERROR, message := none, filename := some "a.po", lineno := 3,
    column := 7, multiline_p := 0, message_text := "end-of-line within string" }

/-- A `PoMessage` object for handle 0 that belongs to no PO file. -/
def message0 : PyPoMessage := { msg := some 0, pofile := none }

/-- An iterator of the PO file object at address 7. -/
def iterator0 : PyPoMessageIterator := { iter := some 0, pofile := 7 }

/-- The globals between two operations: no closure, lock free. -/
def idle (events : List Event) : Globals :=
  { error_closure := none, error_closure_lock := false, events := events }

/-- The C string that a value passed to a setter stands for: the empty string
for `None`, the buffer up to its first NUL for `bytes`, the UTF-8 text up to
its first NUL for `str`; no string for a `str` with a lone surrogate and for any
other object. -/
def text_of : PyObject → Option String
  | .None => some ""
  | .bytes b => some (c_str b)
  | .unicode t => some (c_str t)
  | .surrogate_str _ => none
  | .object _ => none

/-- A diagnostic with the given severity and text, reported without location. -/
def diag (severity : Int) (text : String) : XerrorCall :=
  { severity := severity, message := none, filename := none, lineno := 0, column := 0,
    multiline_p := 0, message_text := text }

/-! ## Describing what an operation accumulates -/

/-- The text of a diagnostic as it is recorded. -/
def XerrorCall.text (d : XerrorCall) : String := xerror_str d.message_text

/-- Whether a diagnostic is fatal. -/
def XerrorCall.fatal (d : XerrorCall) : Bool := d.severity == PO_SEVERITY_FATAL_ERROR

/-- The diagnostics that reach the handler: those up to the first fatal one,
that one included. -/
def delivered : List XerrorCall → List XerrorCall
  | [] => []
  | d :: ds => if d.fatal then [d] else d :: delivered ds

/-- The message printed on `stderr` before the `longjmp`. -/
def fatal_notice : Event :=
  .stderr "error_handler_error: severity == PO_SEVERITY_FATAL_ERROR, longjmp'ing out\n"

/-- The tuple recorded for a diagnostic: the tag, the constant 0, the text. -/
def recorded_tuple (d : XerrorCall) : ErrorTuple :=
  (if d.severity = PO_SEVERITY_WARNING then "warning" else "error", 0, d.text)

/-- The string kept after one more text: the first text kept as it is, a later
one added after a newline; "first" meaning that the string is still empty. -/
def add_text (acc : String) (d : XerrorCall) : String :=
  if acc.length ≠ 0 then acc ++ "\n" ++ d.text else d.text

/-- What an operation has accumulated when its native function is left: the
tuples of the delivered diagnostics and the string built from their texts. -/
def accumulated (xerrors : List XerrorCall) : ErrorClosure :=
  { error_list := (delivered xerrors).map recorded_tuple,
    error_string := (delivered xerrors).foldl add_text "" }

/-- The events of one pass through `error_section`. -/
def section_events (call : Event) (xerrors : List XerrorCall) : List Event :=
  [.acquire_lock, call] ++ (if xerrors.any XerrorCall.fatal then [fatal_notice] else []) ++
    [.release_lock]

/-- One call of an operation that collects diagnostics, with its arguments and
with what the native library does in it. -/
inductive Operation (σ : Type) where
  | read (self : PyPoFile) (args : Option (Option String))
      (po_file_read : String → NativeRun po_file_t) (po_file_create : po_file_t)
  | write (self : PyPoFile) (args : Option String)
      (po_file_write : po_file_t → String → NativeRun Unit)
  | check_format (L : LibGettextPo σ) (self : PyPoMessage)
      (po_message_check_format : po_message_t → NativeRun Unit) (s : σ)

/-- The globals after an operation. -/
def Operation.run {σ : Type} : Operation σ → Globals → Option Globals
  | .read self args rd cr, g => (pypo_file_init self args rd cr g).map (fun r => r.2.2)
  | .write self args wr, g => (pypo_file_write self args wr g).map (fun r => r.2)
  | .check_format L self chk s, g => (pypo_message_check_format L self chk s g).map (fun r => r.2)

/-- The globals after a sequence of operations, one after the other. -/
def run_all {σ : Type} : List (Operation σ) → Globals → Option Globals
  | [], g => some g
  | op :: ops, g =>
    match op.run g with
    | none => none
    | some g1 => run_all ops g1

/-- The texts joined by a newline between consecutive texts. -/
def joined (texts : List String) : String := "\n".intercalate texts

/-- The texts without the empty texts at the front. -/
def dropEmpty (texts : List String) : List String := texts.dropWhile (fun t => t == "")


/-! ## Getters, comparison and life cycle of `PoMessage` -/

/-- The functions of libgettextpo that make, walk and free native objects, and
the native setter of msgid, over a native heap `σ`.  A function that returns a
handle returns it together with the heap after the call. -/
structure LibGettextPoObjects (σ : Type) where
  po_message_set_msgid : σ → po_message_t → String → σ
  po_message_set_format : σ → po_message_t → Option String → Int → σ
  po_message_create : σ → po_message_t × σ
  po_next_message : σ → po_message_iterator_t → po_message_t × σ
  po_file_create : σ → po_file_t × σ
  /-- the call `po_message_iterator(pofile, NULL)` -/
  po_message_iterator : σ → po_file_t → po_message_iterator_t × σ
  po_message_iterator_free : σ → po_message_iterator_t → σ
  po_file_free : σ → po_file_t → σ

/-- The byte `s[0]` of a C string: the terminating NUL when the string is empty. -/
def first_byte (s : String) : Char := s.data.headD (Char.ofNat 0)

/-- The C `PyBytes_FromString`: a `bytes` object with a copy of the C string. -/
def PyBytes_FromString (s : String) : PyObject := .bytes (c_str s)

/-- The C `pypo_message_set_msgid` (gettextpo.c:572). -/
def pypo_message_set_msgid {σ : Type} (A : LibGettextPoObjects σ) (self : PyPoMessage)
    (args : Option PyObject) (s : σ) (g : Globals) : PyResult Unit × σ × Globals :=
  _message_set_field self args A.po_message_set_msgid s g

/-- The C `pypo_message_set_format` (gettextpo.c:658).  `args` is the argument
tuple as `PyArg_ParseTuple` with format `zi` sees it: `none` when it is not a
string or `None` and an `int`; an `int` outside the range of a C `int` makes the
parsing fail with `OverflowError`. -/
def pypo_message_set_format {σ : Type} (A : LibGettextPoObjects σ) (self : PyPoMessage)
    (args : Option (Option String × Int)) (s : σ) : PyResult Unit × σ :=
  match args with
  | none => (.raise .TypeError, s)
  | some (format_type, value) =>
    if value < INT_MIN ∨ INT_MAX < value then
      (.raise .OverflowError, s)
    else
      (.ok (), A.po_message_set_format s self.msg format_type value)

/-- The C `pypo_message_get_msgid` (gettextpo.c:769). -/
def pypo_message_get_msgid {σ : Type} (L : LibGettextPo σ) (self : PyPoMessage) (s : σ) :
    PyObject :=
  match L.po_message_msgid s self.msg with
  | none => .None
  | some msgid =>
    if first_byte msgid = Char.ofNat 0 then .None
    else PyBytes_FromString msgid

/-- The C `pypo_message_get_msgid_plural` (gettextpo.c:784). -/
def pypo_message_get_msgid_plural {σ : Type} (L : LibGettextPo σ) (self : PyPoMessage) (s : σ) :
    PyObject :=
  match L.po_message_msgid_plural s self.msg with
  | some msgid_plural => PyBytes_FromString msgid_plural
  | none => .None

/-- The comparison `Py_LT` of `object.h`. -/
def Py_LT : Int := 0
/-- The comparison `Py_LE` of `object.h`. -/
def Py_LE : Int := 1
/-- The comparison `Py_EQ` of `object.h`. -/
def Py_EQ : Int := 2
/-- The comparison `Py_NE` of `object.h`. -/
def Py_NE : Int := 3
/-- The comparison `Py_GT` of `object.h`. -/
def Py_GT : Int := 4
/-- The comparison `Py_GE` of `object.h`. -/
def Py_GE : Int := 5

/-- The second argument of a comparison: a `PoMessage` object (one that passes
`PyObject_TypeCheck` for `PyPoMessage_Type`), or any other Python object. -/
inductive Operand where
  | message (m : PyPoMessage)
  | other (o : PyObject)
  deriving DecidableEq, Repr

/-- The objects a comparison returns. -/
inductive Comparison where
  | Py_True
  | Py_False
  | Py_NotImplemented
  deriving DecidableEq, Repr

/-- The C `pypo_message_richcmp` (gettextpo.c:509).  It sets no exception on any
path: its result is always an object. -/
def pypo_message_richcmp (self : PyPoMessage) (other : Operand) (op : Int) :
    PyResult Comparison :=
  match other with
  -- only support equality checks between PoMessage objects
  | .other _ => .ok .Py_NotImplemented
  | .message other =>
    if op = Py_EQ then
      .ok (if self.msg = other.msg then .Py_True else .Py_False)
    else if op = Py_NE then
      .ok (if self.msg ≠ other.msg then .Py_True else .Py_False)
    else
      .ok .Py_NotImplemented

/-- The C `pypo_message_init` (gettextpo.c:456).  `args` is what
`PyArg_ParseTupleAndKeywords` with the empty format yields.  Returns the result,
the object after the call and the native heap. -/
def pypo_message_init {σ : Type} (A : LibGettextPoObjects σ) (self : PyPoMessage)
    (args : Option Unit) (s : σ) : PyResult Unit × PyPoMessage × σ :=
  match args with
  | none => (.raise .TypeError, self, s)
  | some _ =>
    let created := A.po_message_create s
    let self1 : PyPoMessage := { self with msg := created.1 }
    if self1.msg = none then
      (.raise (.RuntimeError "could not create PoMessage object"), self1, created.2)
    else
      (.ok (), self1, created.2)

/-- The C `pypo_message_iterator_next` (gettextpo.c:384).  `self_ptr` is the
address of the iterator object `self`, which the new message keeps as its
`pofile`.  Returns the new message object, or `StopIteration`; the failure of
`PyObject_New` for want of memory is left out. -/
def pypo_message_iterator_next {σ : Type} (A : LibGettextPoObjects σ)
    (self : PyPoMessageIterator) (self_ptr : Nat) (s : σ) : PyResult PyPoMessage × σ :=
  let next := A.po_next_message s self.iter
  if next.1 = none then
    (.raise .StopIteration, next.2)
  else
    (.ok { msg := next.1, pofile := some self_ptr }, next.2)

/-- The C `pypo_message_dealloc` (gettextpo.c:475): a message without owner is put
into a temporary PO file, which is freed with it.  Returns the native heap and
the globals; the object is gone. -/
def pypo_message_dealloc {σ : Type} (L : LibGettextPo σ) (A : LibGettextPoObjects σ)
    (self : PyPoMessage) (s : σ) (g : Globals) : σ × Globals :=
  if self.pofile ≠ none then
    (s, g)
  else if self.msg ≠ none then
    -- this pomessage has no owner, so add it to a temporary pofile
    let pofile := A.po_file_create s
    let iter := A.po_message_iterator pofile.2 pofile.1
    let s1 := L.po_message_insert iter.2 iter.1 self.msg
    let s2 := A.po_message_iterator_free s1 iter.1
    let s3 := A.po_file_free s2 pofile.1
    (s3, (g.log .call_po_file_create).log (.call_po_message_insert iter.1 self.msg))
  else
    (s, g)

/-- The instance of these functions on `NativeHeap`: a new message is appended
to the heap; the one message list is walked by its index; temporary files and
iterators have the handles 0. -/
def nativeObjects : LibGettextPoObjects NativeHeap where
  po_message_set_msgid h msg v := h.update msg (fun m => { m with msgid := some v })
  po_message_set_format h _ _ _ := h
  po_message_create h :=
    (some h.messages.length,
      { h with messages := h.messages ++
          [{ msgid := none, msgid_plural := none, msgstr := some "", msgstr_plural := [] }] })
  po_next_message h _ :=
    match h.catalog.get? h.index with
    | some msg => (msg, { h with index := h.index + 1 })
    | none => (none, h)
  po_file_create h := (some 0, h)
  po_message_iterator h _ := (some 0, h)
  po_message_iterator_free h _ := h
  po_file_free h _ := h

/-- The heap after `set_msgid("")` on the message of `heap0`. -/
def heap3 : NativeHeap :=
  { messages := [{ freshMessage with msgid := some "" }], catalog := [], index := 0 }

/-- A heap with two messages that agree in every field. -/
def heap5 : NativeHeap := { messages := [freshMessage, freshMessage], catalog := [], index := 0 }

/-- The heap after `set_msgid_plural(None)` on the message of `heap0`. -/
def heap4 : NativeHeap :=
  { messages := [{ freshMessage with msgid_plural := some "" }], catalog := [], index := 0 }

/-! ## Programs that use messages -/

/-- The state of a program: the `PoMessage` objects (slot `i` holds the object at
address `i`, `none` once it is freed), the native heap and the globals. -/
structure World (σ : Type) where
  objects : List (Option PyPoMessage)
  native : σ
  globals : Globals

/-- What a program does with messages.  `i` is the address of the message.  The
getters, the comparison and `repr` only read and return a value. -/
inductive Action (σ : Type) where
  /-- the call `PoMessage()` -/
  | create
  /-- calling `m.__init__()` on an existing message -/
  | init (i : Nat)
  /-- the call `next(I)`; the iterator object is at address `self_ptr` -/
  | next (self : PyPoMessageIterator) (self_ptr : Nat)
  /-- the call `I.insert(m)` -/
  | insert (self : PyPoMessageIterator) (i : Nat)
  /-- one of the calls `m.set_msgctxt(value)`, `m.set_msgid(value)`,
  `m.set_msgid_plural(value)`, `m.set_msgstr(value)`, `m.set_comments(value)`:
  `_message_set_field` with the native setter of the field -/
  | set_field (i : Nat) (value : PyObject) (setter : σ → po_message_t → String → σ)
  /-- the call `m.set_format(format_type, value)` -/
  | set_format (i : Nat) (format_type : Option String) (value : Int)
  /-- the call `m.set_msgstr_plural(index, value)` -/
  | set_msgstr_plural (i : Nat) (index : Int) (value : PyObject)
  /-- the call `m.check_format()`, with what the native checker does -/
  | check_format (i : Nat) (po_message_check_format : po_message_t → NativeRun Unit)
  /-- the last reference to `m` is dropped -/
  | dealloc (i : Nat)

/-- The object at address `i`, if there is one. -/
def World.object {σ : Type} (w : World σ) (i : Nat) : Option PyPoMessage :=
  (w.objects.get? i).bind id

/-- One action.  An action on an address without object does nothing; `none`
when the call does not return. -/
def step {σ : Type} (L : LibGettextPo σ) (A : LibGettextPoObjects σ) :
    Action σ → World σ → Option (World σ)
  | .create, w =>
    -- `tp_new` gives an object with both fields `NULL`, `tp_init` is run on it,
    -- and the object is freed again when `tp_init` fails
    let r := pypo_message_init A { msg := none, pofile := none } (some ()) w.native
    match r.1 with
    | .ok _ => some { objects := w.objects ++ [some r.2.1], native := r.2.2, globals := w.globals }
    | .raise _ =>
      let d := pypo_message_dealloc L A r.2.1 r.2.2 w.globals
      some { objects := w.objects, native := d.1, globals := d.2 }
  | .init i, w =>
    match w.object i with
    | none => some w
    | some m =>
      let r := pypo_message_init A m (some ()) w.native
      some { objects := w.objects.set i (some r.2.1), native := r.2.2, globals := w.globals }
  | .next self self_ptr, w =>
    let r := pypo_message_iterator_next A self self_ptr w.native
    match r.1 with
    | .ok item => some { objects := w.objects ++ [some item], native := r.2, globals := w.globals }
    | .raise _ => some { objects := w.objects, native := r.2, globals := w.globals }
  | .insert self i, w =>
    match w.object i with
    | none => some w
    | some m =>
      let r := pypo_message_iterator_insert L self (some m) w.native w.globals
      some { objects := w.objects.set i r.2.1, native := r.2.2.1, globals := r.2.2.2 }
  | .set_field i value setter, w =>
    match w.object i with
    | none => some w
    | some m =>
      let r := _message_set_field m (some value) setter w.native w.globals
      some { objects := w.objects, native := r.2.1, globals := r.2.2 }
  | .set_format i format_type value, w =>
    match w.object i with
    | none => some w
    | some m =>
      let r := pypo_message_set_format A m (some (format_type, value)) w.native
      some { objects := w.objects, native := r.2, globals := w.globals }
  | .set_msgstr_plural i index value, w =>
    match w.object i with
    | none => some w
    | some m =>
      let r := pypo_message_set_msgstr_plural L m (some (index, value)) w.native w.globals
      some { objects := w.objects, native := r.2.1, globals := r.2.2 }
  | .check_format i chk, w =>
    match w.object i with
    | none => some w
    | some m =>
      match pypo_message_check_format L m chk w.native w.globals with
      | none => none
      | some r => some { objects := w.objects, native := w.native, globals := r.2 }
  | .dealloc i, w =>
    match w.object i with
    | none => some w
    | some m =>
      let d := pypo_message_dealloc L A m w.native w.globals
      some { objects := w.objects.set i none, native := d.1, globals := d.2 }

/-- The actions of a program, one after the other. -/
def run {σ : Type} (L : LibGettextPo σ) (A : LibGettextPoObjects σ) :
    List (Action σ) → World σ → Option (World σ)
  | [], w => some w
  | a :: as, w =>
    match step L A a w with
    | none => none
    | some w1 => run L A as w1

/-- The native message that an event inserts: the handle of a call of
`po_message_insert`, unless it is `NULL`. -/
def inserted_handle : Event → Option Nat
  | .call_po_message_insert _ msg => msg
  | _ => none

/-- The native messages handed to `po_message_insert` so far, in order. -/
def inserted_handles (events : List Event) : List Nat := events.filterMap inserted_handle

/-- The native message of an object without owner. -/
def ownerless_handle : Option PyPoMessage → Option Nat
  | some m => if m.pofile = none then m.msg else none
  | none => none

/-- The native messages wrapped by the objects without owner. -/
def ownerless_handles (objects : List (Option PyPoMessage)) : List Nat :=
  objects.filterMap ownerless_handle

/-- A handle returned by `po_message_create` names a new message: it is `NULL`,
or it is neither wrapped by an object without owner nor was it ever inserted.
Handles stand for native messages: the handle of a freed message is not given
to a later one. -/
def World.fresh {σ : Type} (w : World σ) : po_message_t → Bool
  | none => true
  | some n => decide (n ∉ ownerless_handles w.objects ++ inserted_handles w.globals.events)

/-- Whether `po_message_create`, if the action calls it, returns a new message. -/
def fresh_action {σ : Type} (A : LibGettextPoObjects σ) : Action σ → World σ → Bool
  | .create, w => w.fresh (A.po_message_create w.native).1
  | .init i, w => (w.object i).isNone || w.fresh (A.po_message_create w.native).1
  | _, _ => true

/-- Whether `po_message_create` returns a new message each time the program
calls it. -/
def fresh_run {σ : Type} (L : LibGettextPo σ) (A : LibGettextPoObjects σ) :
    List (Action σ) → World σ → Bool
  | [], _ => true
  | a :: as, w =>
    fresh_action A a w &&
    (match step L A a w with
      | none => true
      | some w1 => fresh_run L A as w1)

/-- A heap as after reading a PO file with one message: handle 0, in the
message list, the iterator before it. -/
def heap6 : NativeHeap := { messages := [freshMessage], catalog := [some 0], index := 0 }

/-- A program: a message taken from the iterator at address 9, which `insert`
refuses; a new message, inserted, and refused the second time; its object
freed; one more message, freed without having been inserted. -/
def program0 : List (Action NativeHeap) :=
  [.next iterator0 9, .insert iterator0 0, .create,
   .set_field 1 (.unicode "file") nativeObjects.po_message_set_msgid, .insert iterator0 1,
   .insert iterator0 1, .dealloc 1, .create, .dealloc 2]

/-- Whether an action is the deallocation of a message. -/
def Action.is_dealloc {σ : Type} : Action σ → Bool
  | .dealloc _ => true
  | _ => false

/-- The world of a program that has made no message yet. -/
def world0 {σ : Type} (s : σ) : World σ := { objects := [], native := s, globals := idle [] }

/-- The state of a program is consistent: counting, for a native message, the
objects without owner that wrap it and the times it was handed to
`po_message_insert`, the sum is at most one; and the lock is free and
`error_closure` unset. -/
def World.consistent {σ : Type} (w : World σ) : Prop :=
  (∀ n, (ownerless_handles w.objects).count n + (inserted_handles w.globals.events).count n ≤ 1) ∧
    ∃ events, w.globals = idle events

/-! ## Lemmas on strings -/

theorem length_eq_zero_iff (s : String) : s.length = 0 ↔ s = "" := by
  cases s with
  | mk l =>
    constructor
    · intro h
      have hl : l = [] := List.length_eq_zero.mp h
      subst hl
      rfl
    · intro h
      rw [h]
      rfl

theorem strlen_eq_zero_iff (s : String) : strlen s = 0 ↔ s = "" := by
  constructor
  · intro h
    cases s with
    | mk l =>
      cases l with
      | nil => rfl
      | cons c cs =>
        exfalso
        have hc := Char.utf8Size_pos c
        simp [strlen, String.utf8ByteSize, String.utf8ByteSize.go] at h
        omega
  · intro h
    rw [h]
    rfl

/-! ## The handler and the delivery of diagnostics -/

theorem error_handler_xerror_eq (g : Globals) (c : ErrorClosure) (d : XerrorCall)
    (h : g.error_closure = some c) :
    error_handler_xerror g d =
      some ({ error_closure := some ⟨c.error_list ++ [recorded_tuple d], add_text c.error_string d⟩,
              error_closure_lock := g.error_closure_lock,
              events := g.events ++ (if d.fatal then [fatal_notice] else []) },
            if d.fatal then .longjmp else .returned) := by
  unfold error_handler_xerror
  simp only [h, XerrorCall.fatal, recorded_tuple, add_text, XerrorCall.text, fatal_notice,
    beq_iff_eq, Globals.log]
  split <;> simp

theorem error_handler_xerror_eq_none_iff (g : Globals) (d : XerrorCall) :
    error_handler_xerror g d = none ↔ g.error_closure = none := by
  cases h : g.error_closure with
  | none => simp [error_handler_xerror, h]
  | some c => rw [error_handler_xerror_eq g c d h]; simp

theorem deliver_eq (ds : List XerrorCall) (g : Globals) (c : ErrorClosure)
    (h : g.error_closure = some c) :
    deliver g ds =
      some ({ error_closure :=
                some { error_list := c.error_list ++ (delivered ds).map recorded_tuple,
                       error_string := (delivered ds).foldl add_text c.error_string },
              error_closure_lock := g.error_closure_lock,
              events := g.events ++ (if ds.any XerrorCall.fatal then [fatal_notice] else []) },
            if ds.any XerrorCall.fatal then .longjmp else .returned) := by
  induction ds generalizing g c with
  | nil =>
    cases g
    simp_all [deliver, delivered]
  | cons d ds ih =>
    unfold deliver
    rw [error_handler_xerror_eq g c d h]
    by_cases hf : d.fatal = true
    · simp [hf, delivered]
    · simp only [hf, Bool.false_eq_true, if_false]
      rw [ih _ _ rfl]
      simp [hf, delivered, List.append_assoc]

/-! ## The accumulated string -/

theorem add_text_ne_empty (acc : String) (d : XerrorCall) (h : acc ≠ "") :
    add_text acc d = acc ++ "\n" ++ d.text ∧ add_text acc d ≠ "" := by
  have hl : acc.length ≠ 0 := fun h0 => h ((length_eq_zero_iff acc).mp h0)
  have h1 : add_text acc d = acc ++ "\n" ++ d.text := by simp [add_text, hl]
  refine ⟨h1, ?_⟩
  intro h2
  have h3 : (add_text acc d).length = 0 := by rw [h2]; rfl
  rw [h1] at h3
  simp [String.length_append] at h3
  exact hl h3.1.1

theorem add_text_empty (d : XerrorCall) : add_text "" d = d.text := by
  simp [add_text]

theorem foldl_add_text_of_ne_empty (ds : List XerrorCall) (acc : String) (h : acc ≠ "") :
    ds.foldl add_text acc = String.intercalate.go acc "\n" (ds.map XerrorCall.text) ∧
      ds.foldl add_text acc ≠ "" := by
  induction ds generalizing acc with
  | nil => exact ⟨rfl, h⟩
  | cons d ds ih =>
    have h1 := add_text_ne_empty acc d h
    simp only [List.foldl_cons, List.map_cons, String.intercalate.go]
    rw [h1.1]
    exact ih _ (h1.1 ▸ h1.2)

theorem foldl_add_text_eq_joined (ds : List XerrorCall) :
    ds.foldl add_text "" = joined (dropEmpty (ds.map XerrorCall.text)) := by
  induction ds with
  | nil => rfl
  | cons d ds ih =>
    simp only [List.foldl_cons, add_text_empty, List.map_cons, dropEmpty, List.dropWhile_cons]
    by_cases ht : d.text = ""
    · simp only [ht, beq_self_eq_true, if_true]
      exact ih
    · have hb : (d.text == "") = false := by simpa using ht
      simp only [hb, Bool.false_eq_true, if_false, joined, String.intercalate]
      exact (foldl_add_text_of_ne_empty ds d.text ht).1

theorem foldl_add_text_ne_empty_iff (ds : List XerrorCall) :
    ds.foldl add_text "" ≠ "" ↔ ∃ d ∈ ds, d.text ≠ "" := by
  induction ds with
  | nil => simp
  | cons d ds ih =>
    simp only [List.foldl_cons, add_text_empty, List.mem_cons, exists_eq_or_imp]
    by_cases ht : d.text = ""
    · rw [ht]
      simp [ih]
    · exact iff_of_true (foldl_add_text_of_ne_empty ds d.text ht).2 (Or.inl ht)

/-! ## The diagnostic section of the three operations -/

theorem error_section_eq (events : List Event) (call : Event) (xerrors : List XerrorCall) :
    error_section (idle events) call xerrors =
      some (accumulated xerrors,
            (if xerrors.any XerrorCall.fatal then .longjmp else .returned),
            idle (events ++ section_events call xerrors)) := by
  unfold error_section
  simp only [PyThread_acquire_lock, idle, Globals.log, Bool.false_eq_true, if_false]
  rw [deliver_eq xerrors _ ⟨[], ""⟩ rfl]
  simp [accumulated, PyThread_release_lock, Globals.log, section_events, idle]

theorem closure_result_accumulated (xerrors : List XerrorCall) :
    closure_result (accumulated xerrors) =
      if ∃ d ∈ delivered xerrors, d.text ≠ "" then
        .raise (.gettextpo_error (accumulated xerrors).error_string
          (accumulated xerrors).error_list)
      else .ok () := by
  have h := foldl_add_text_ne_empty_iff (delivered xerrors)
  unfold closure_result
  by_cases he : (accumulated xerrors).error_string = ""
  · have h1 : ¬ ∃ d ∈ delivered xerrors, d.text ≠ "" := fun hx => (h.mpr hx) he
    have h2 : (accumulated xerrors).error_string.length = 0 := (length_eq_zero_iff _).mpr he
    simp only [h2, ne_eq, not_true_eq_false, if_false, h1]
  · have h1 : ∃ d ∈ delivered xerrors, d.text ≠ "" := h.mp he
    have h2 : (accumulated xerrors).error_string.length ≠ 0 :=
      fun h0 => he ((length_eq_zero_iff _).mp h0)
    simp only [h2, ne_eq, not_false_eq_true, if_true, h1]

/-! ## The operations in closed form -/

theorem pypo_file_write_eq (self : PyPoFile) (filename : String)
    (po_file_write : po_file_t → String → NativeRun Unit) (events : List Event) :
    pypo_file_write self (some filename) po_file_write (idle events) =
      some (closure_result (accumulated (po_file_write self.pofile filename).xerrors),
            idle (events ++ section_events (.call_po_file_write self.pofile filename)
              (po_file_write self.pofile filename).xerrors)) := by
  simp only [pypo_file_write, error_section_eq]

theorem pypo_file_init_eq (self : PyPoFile) (filename : String)
    (po_file_read : String → NativeRun po_file_t) (po_file_create : po_file_t)
    (events : List Event) :
    pypo_file_init self (some (some filename)) po_file_read po_file_create (idle events) =
      some ((if closure_result (accumulated (po_file_read filename).xerrors) = .ok () ∧
                (if (po_file_read filename).xerrors.any XerrorCall.fatal then self
                  else { self with pofile := (po_file_read filename).result }).pofile = none then
              .raise (.RuntimeError "could not create PoFile object")
            else closure_result (accumulated (po_file_read filename).xerrors)),
            (if (po_file_read filename).xerrors.any XerrorCall.fatal then self
              else { self with pofile := (po_file_read filename).result }),
            idle (events ++ section_events (.call_po_file_read filename)
              (po_file_read filename).xerrors)) := by
  simp only [pypo_file_init, error_section_eq]
  by_cases hf : (po_file_read filename).xerrors.any XerrorCall.fatal = true
  · simp only [hf, if_true]
    split <;> rfl
  · simp only [hf, Bool.false_eq_true, if_false]
    split <;> rfl

theorem pypo_message_check_format_eq {σ : Type} (L : LibGettextPo σ) (self : PyPoMessage)
    (po_message_check_format : po_message_t → NativeRun Unit) (s : σ) (events : List Event)
    (msgid msgstr : String) (hid : L.po_message_msgid s self.msg = some msgid)
    (hstr : L.po_message_msgstr s self.msg = some msgstr)
    (hid0 : msgid ≠ "") (hstr0 : msgstr ≠ "") :
    pypo_message_check_format L self po_message_check_format s (idle events) =
      some (closure_result (accumulated (po_message_check_format self.msg).xerrors),
            idle (events ++ section_events (.call_po_message_check_format self.msg)
              (po_message_check_format self.msg).xerrors)) := by
  have h1 : strlen msgid ≠ 0 := fun h => hid0 ((strlen_eq_zero_iff msgid).mp h)
  have h2 : strlen msgstr ≠ 0 := fun h => hstr0 ((strlen_eq_zero_iff msgstr).mp h)
  simp only [pypo_message_check_format, hid, hstr, Option.map_some', Option.some.injEq, h1, h2,
    or_self, if_false, error_section_eq, reduceCtorEq]

/-! ## Conversion of the value given to a setter -/

theorem get_pybytes_of_text (v : PyObject) (pv : String) (hne : v ≠ .None)
    (hv : text_of v = some pv) :
    ∃ string, get_pybytes_from_pyobject v = .ok string ∧ PyBytes_AsString string = some pv := by
  cases v with
  | None => exact absurd rfl hne
  | bytes b =>
    cases hv
    exact ⟨.bytes b, rfl, rfl⟩
  | unicode t =>
    cases hv
    exact ⟨.bytes t, rfl, rfl⟩
  | surrogate_str n => cases hv
  | object n => cases hv

theorem set_msgstr_plural_of_text {σ : Type} (L : LibGettextPo σ) (self : PyPoMessage)
    (index : Int) (v : PyObject) (pv : String) (s : σ) (g : Globals)
    (hmin : INT_MIN ≤ index) (hmax : index ≤ INT_MAX)
    (hp : L.po_message_msgid_plural s self.msg ≠ none) (hv : text_of v = some pv) :
    pypo_message_set_msgstr_plural L self (some (index, v)) s g =
      (.ok (), L.po_message_set_msgstr_plural s self.msg index pv,
        g.log (.call_po_message_set_msgstr_plural self.msg index pv)) := by
  have hr : ¬ (index < INT_MIN ∨ INT_MAX < index) := by omega
  by_cases hnone : v = .None
  · subst hnone
    cases hv
    simp [pypo_message_set_msgstr_plural, hr, hp]
  · obtain ⟨string, h1, h2⟩ := get_pybytes_of_text v pv hnone hv
    simp [pypo_message_set_msgstr_plural, hr, hp, hnone, h1, h2]

theorem set_msgstr_plural_of_other {σ : Type} (L : LibGettextPo σ) (self : PyPoMessage)
    (index : Int) (n : Nat) (s : σ) (g : Globals)
    (hmin : INT_MIN ≤ index) (hmax : index ≤ INT_MAX)
    (hp : L.po_message_msgid_plural s self.msg ≠ none) :
    pypo_message_set_msgstr_plural L self (some (index, .object n)) s g =
        (.raise .TypeError, s, g) ∧
      pypo_message_set_msgstr_plural L self (some (index, .surrogate_str n)) s g =
        (.raise .UnicodeEncodeError, s, g) := by
  have hr : ¬ (index < INT_MIN ∨ INT_MAX < index) := by omega
  constructor
  · simp [pypo_message_set_msgstr_plural, hr, hp, get_pybytes_from_pyobject, PyBytes_Check,
      PyUnicode_FromObject]
  · simp [pypo_message_set_msgstr_plural, hr, hp, get_pybytes_from_pyobject, PyBytes_Check,
      PyUnicode_FromObject, PyUnicode_AsUTF8String]

theorem set_msgstr_plural_out_of_range {σ : Type} (L : LibGettextPo σ) (self : PyPoMessage)
    (index : Int) (v : PyObject) (s : σ) (g : Globals) (h : index < INT_MIN ∨ INT_MAX < index) :
    pypo_message_set_msgstr_plural L self (some (index, v)) s g =
      (.raise .OverflowError, s, g) := by
  simp [pypo_message_set_msgstr_plural, h]

theorem message_set_field_text {σ : Type} (self : PyPoMessage) (w : PyObject) (pw : String)
    (setter : σ → po_message_t → String → σ) (s : σ) (g : Globals) (h : text_of w = some pw) :
    _message_set_field self (some w) setter s g =
      (.ok (), setter s self.msg pw, g.log (.call_setter self.msg pw)) := by
  by_cases hnone : w = .None
  · subst hnone
    cases h
    simp [_message_set_field]
  · obtain ⟨string, h1, h2⟩ := get_pybytes_of_text w pw hnone h
    simp [_message_set_field, hnone, h1, h2]

theorem message_set_field_no_text {σ : Type} (self : PyPoMessage) (n : Nat)
    (setter : σ → po_message_t → String → σ) (s : σ) (g : Globals) :
    _message_set_field self (some (.object n)) setter s g = (.raise .TypeError, s, g) ∧
      _message_set_field self (some (.surrogate_str n)) setter s g =
        (.raise .UnicodeEncodeError, s, g) := by
  constructor
  · simp [_message_set_field, get_pybytes_from_pyobject, PyBytes_Check, PyUnicode_FromObject]
  · simp [_message_set_field, get_pybytes_from_pyobject, PyBytes_Check, PyUnicode_FromObject,
      PyUnicode_AsUTF8String]

/-! ## Insertion through an iterator -/

/-- C1: `I.insert(m)` on an owned message (`m.pofile` set) raises `ValueError`
and leaves the message object, the native heap and the globals as they were, so
that `po_message_insert` is not called; on an ownerless message it returns
`None`, the heap is the one `po_message_insert(I.iter, m.msg)` yields, that call
is the only event, and the owner of `m` is the PO file of the iterator. -/
theorem insert_owned_fails_ownerless_succeeds {σ : Type} (L : LibGettextPo σ)
    (self : PyPoMessageIterator) (m : PyPoMessage) (s : σ) (g : Globals) :
    (m.pofile ≠ none →
      pypo_message_iterator_insert L self (some m) s g =
        (.raise (.ValueError "message already a member of a PO file"), some m, s, g)) ∧
    (m.pofile = none →
      pypo_message_iterator_insert L self (some m) s g =
        (.ok (), some { msg := m.msg, pofile := some self.pofile },
          L.po_message_insert s self.iter m.msg,
          { error_closure := g.error_closure, error_closure_lock := g.error_closure_lock,
            events := g.events ++ [.call_po_message_insert self.iter m.msg] })) := by
  constructor
  · intro h
    simp [pypo_message_iterator_insert, h]
  · intro h
    simp [pypo_message_iterator_insert, h, Globals.log]

theorem insert_owned_fails_ownerless_succeeds_witness :
    pypo_message_iterator_insert nativeLib iterator0 (some { msg := some 0, pofile := some 7 })
        heap0 (idle []) =
      (.raise (.ValueError "message already a member of a PO file"),
        some { msg := some 0, pofile := some 7 }, heap0, idle []) ∧
    pypo_message_iterator_insert nativeLib iterator0 (some message0) heap0 (idle []) =
      (.ok (), some { msg := some 0, pofile := some 7 },
        { messages := [freshMessage], catalog := [some 0], index := 1 },
        idle [.call_po_message_insert (some 0) (some 0)]) :=
  ⟨(insert_owned_fails_ownerless_succeeds nativeLib iterator0 { msg := some 0, pofile := some 7 }
      heap0 (idle [])).1 (by decide),
   (insert_owned_fails_ownerless_succeeds nativeLib iterator0 message0 heap0 (idle [])).2 rfl⟩

/-! ## Plural forms -/

/-- C2, as stated, fails: after `set_msgid_plural("files")` has succeeded,
`set_msgstr_plural(1, v)` for a value `v` that is neither `None`, `bytes` nor
`str` raises `TypeError` and stores nothing. -/
theorem set_msgstr_plural_rejects_non_text :
    pypo_message_set_msgid_plural nativeLib message0 (some (.unicode "files")) heap0 (idle []) =
      (.ok (), heap1, idle [.call_setter (some 0) "files"]) ∧
    pypo_message_set_msgstr_plural nativeLib message0 (some (1, .object 5)) heap1 (idle []) =
      (.raise .TypeError, heap1, idle []) := by
  constructor <;> rfl

/-- C2, amended: for every index `i` in the range of a C `int`: without a
`msgid_plural` (the native getter gives `NULL`), `set_msgstr_plural(i, v)` raises
`ValueError` for every `v` and leaves the native heap and the globals as they
were.  After `set_msgid_plural(w)` for a `w` that is `None`, `bytes` or a `str`
with a UTF-8 encoding (it returns `None` and hands the text of `w` to the native
setter), `set_msgstr_plural(i, v)` for a `v` that is `None`, `bytes` or a `str`
with a UTF-8 encoding returns `None` and hands index `i` and the text of `v` to
`po_message_set_msgstr_plural`; for a `str` with a lone surrogate it raises
`UnicodeEncodeError`, for any other object `TypeError`, and leaves heap and
globals as they were.  `set_msgid_plural(w)` itself fails in the same two ways
for such a `w`.  For an index outside the range of a C `int` the call raises
`OverflowError` and changes nothing, whatever the message and the value.  The
native library is taken to return a non-`NULL` `msgid_plural` for this message
once one was set. -/
theorem set_msgstr_plural_contract {σ : Type} (L : LibGettextPo σ) (self : PyPoMessage)
    (index : Int) (s : σ) (g : Globals)
    (hmin : INT_MIN ≤ index) (hmax : index ≤ INT_MAX)
    (law : ∀ v, L.po_message_msgid_plural (L.po_message_set_msgid_plural s self.msg v) self.msg
      ≠ none) :
    (∀ v, L.po_message_msgid_plural s self.msg = none →
      pypo_message_set_msgstr_plural L self (some (index, v)) s g =
        (.raise (.ValueError "can not set plural msgstr with no plural msgid"), s, g)) ∧
    (∀ w pw, text_of w = some pw →
      pypo_message_set_msgid_plural L self (some w) s g =
        (.ok (), L.po_message_set_msgid_plural s self.msg pw, g.log (.call_setter self.msg pw)) ∧
      (∀ v pv, text_of v = some pv →
        pypo_message_set_msgstr_plural L self (some (index, v))
            (L.po_message_set_msgid_plural s self.msg pw) (g.log (.call_setter self.msg pw)) =
          (.ok (),
            L.po_message_set_msgstr_plural (L.po_message_set_msgid_plural s self.msg pw)
              self.msg index pv,
            (g.log (.call_setter self.msg pw)).log
              (.call_po_message_set_msgstr_plural self.msg index pv))) ∧
      (∀ n,
        pypo_message_set_msgstr_plural L self (some (index, .object n))
            (L.po_message_set_msgid_plural s self.msg pw) (g.log (.call_setter self.msg pw)) =
          (.raise .TypeError, L.po_message_set_msgid_plural s self.msg pw,
            g.log (.call_setter self.msg pw))) ∧
      (∀ n,
        pypo_message_set_msgstr_plural L self (some (index, .surrogate_str n))
            (L.po_message_set_msgid_plural s self.msg pw) (g.log (.call_setter self.msg pw)) =
          (.raise .UnicodeEncodeError, L.po_message_set_msgid_plural s self.msg pw,
            g.log (.call_setter self.msg pw)))) ∧
    (∀ n,
      pypo_message_set_msgid_plural L self (some (.object n)) s g = (.raise .TypeError, s, g) ∧
      pypo_message_set_msgid_plural L self (some (.surrogate_str n)) s g =
        (.raise .UnicodeEncodeError, s, g)) ∧
    (∀ (i : Int) v (s1 : σ) (g1 : Globals), i < INT_MIN ∨ INT_MAX < i →
      pypo_message_set_msgstr_plural L self (some (i, v)) s1 g1 =
        (.raise .OverflowError, s1, g1)) := by
  have hr : ¬ (index < INT_MIN ∨ INT_MAX < index) := by omega
  refine ⟨?_, ?_, ?_, ?_⟩
  · intro v h
    simp [pypo_message_set_msgstr_plural, hr, h]
  · intro w pw hw
    refine ⟨message_set_field_text self w pw _ s g hw, ?_, ?_, ?_⟩
    · intro v pv hv
      exact set_msgstr_plural_of_text L self index v pv _ _ hmin hmax (law pw) hv
    · intro n
      exact (set_msgstr_plural_of_other L self index n _ _ hmin hmax (law pw)).1
    · intro n
      exact (set_msgstr_plural_of_other L self index n _ _ hmin hmax (law pw)).2
  · intro n
    exact message_set_field_no_text self n _ s g
  · intro i v s1 g1 h
    exact set_msgstr_plural_out_of_range L self i v s1 g1 h

theorem set_msgstr_plural_contract_witness :
    INT_MIN ≤ 1 ∧ (1 : Int) ≤ INT_MAX ∧
    pypo_message_set_msgstr_plural nativeLib message0 (some (1, .unicode "fichiers")) heap0
        (idle []) =
      (.raise (.ValueError "can not set plural msgstr with no plural msgid"), heap0, idle []) ∧
    pypo_message_set_msgstr_plural nativeLib message0 (some (1, .unicode "fichiers"))
        (nativeLib.po_message_set_msgid_plural heap0 (some 0) "files")
        ((idle []).log (.call_setter (some 0) "files")) =
      (.ok (),
        nativeLib.po_message_set_msgstr_plural
          (nativeLib.po_message_set_msgid_plural heap0 (some 0) "files") (some 0) 1 "fichiers",
        ((idle []).log (.call_setter (some 0) "files")).log
          (.call_po_message_set_msgstr_plural (some 0) 1 "fichiers")) ∧
    (nativeLib.po_message_set_msgstr_plural
        (nativeLib.po_message_set_msgid_plural heap0 (some 0) "files") (some 0) 1
        "fichiers").messages =
      [{ msgid := none, msgid_plural := some "files", msgstr := some "",
         msgstr_plural := ["", "fichiers"] }] :=
  ⟨by decide, by decide,
   (set_msgstr_plural_contract nativeLib message0 1 heap0 (idle []) (by decide) (by decide)
      (fun _ => by simp [nativeLib, heap0, message0, NativeHeap.update, NativeHeap.message,
        List.modify, List.modifyTailIdx, List.modifyHead])).1
      (.unicode "fichiers") rfl,
   ((set_msgstr_plural_contract nativeLib message0 1 heap0 (idle []) (by decide) (by decide)
      (fun _ => by simp [nativeLib, heap0, message0, NativeHeap.update, NativeHeap.message,
        List.modify, List.modifyTailIdx, List.modifyHead])).2.1
      (.unicode "files") "files" rfl).2.1 (.unicode "fichiers") "fichiers" rfl,
   rfl⟩

/-! ## `check_format` without msgid or msgstr -/

/-- C3: for a message whose msgid is absent (`NULL`) or empty, or whose msgstr
is absent or empty, `check_format` returns `None` with the globals exactly as
they were: the native checker is not called, no closure is made and nothing is
recorded, the lock is not taken.  This holds for every native heap, so for every
setting of the format flags, and whatever the native checker would report. -/
theorem check_format_noop {σ : Type} (L : LibGettextPo σ) (self : PyPoMessage)
    (po_message_check_format : po_message_t → NativeRun Unit) (s : σ) (g : Globals)
    (h : L.po_message_msgid s self.msg = none ∨ L.po_message_msgid s self.msg = some "" ∨
      L.po_message_msgstr s self.msg = none ∨ L.po_message_msgstr s self.msg = some "") :
    pypo_message_check_format L self po_message_check_format s g = some (.ok (), g) := by
  have hcond : L.po_message_msgid s self.msg = none ∨
      (L.po_message_msgid s self.msg).map strlen = some 0 ∨
      L.po_message_msgstr s self.msg = none ∨
      (L.po_message_msgstr s self.msg).map strlen = some 0 := by
    rcases h with h | h | h | h
    · exact Or.inl h
    · exact Or.inr (Or.inl (by rw [h]; rfl))
    · exact Or.inr (Or.inr (Or.inl h))
    · exact Or.inr (Or.inr (Or.inr (by rw [h]; rfl)))
  unfold pypo_message_check_format
  rw [if_pos hcond]

theorem check_format_noop_witness :
    pypo_message_check_format nativeLib message0
        (fun _ => { xerrors := [diag PO_SEVERITY_ERROR "format mismatch"], result := () })
        heap0 (idle []) = some (.ok (), idle []) :=
  check_format_noop nativeLib message0 _ heap0 (idle []) (Or.inl rfl)

/-! ## The accumulated list and string -/

theorem delivered_eq_self (ds : List XerrorCall)
    (h : ∀ d ∈ ds.dropLast, d.severity ≠ PO_SEVERITY_FATAL_ERROR) : delivered ds = ds := by
  induction ds with
  | nil => rfl
  | cons d ds ih =>
    cases ds with
    | nil =>
      simp only [delivered]
      split <;> rfl
    | cons e es =>
      have hd : d.fatal = false := by
        have := h d (by simp [List.dropLast])
        simpa [XerrorCall.fatal] using this
      have ht : ∀ x ∈ (e :: es).dropLast, x.severity ≠ PO_SEVERITY_FATAL_ERROR := by
        intro x hx
        exact h x (by simp [List.dropLast_cons₂, hx])
      simp only [delivered, hd, Bool.false_eq_true, if_false, List.cons.injEq, true_and]
      exact ih ht

/-- C4, as stated, fails: with an empty first text the string is not the join of
the texts.  For the texts `""` and `"b"` the list has both entries, the
string is `"b"`, and the texts joined by a newline are `"\nb"`. -/
theorem error_string_drops_leading_empty_text :
    error_section (idle []) (.call_po_file_read "a.po")
        [diag PO_SEVERITY_WARNING "", diag PO_SEVERITY_ERROR "b"] =
      some ({ error_list := [("warning", 0, ""), ("error", 0, "b")], error_string := "b" },
        .returned, idle [.acquire_lock, .call_po_file_read "a.po", .release_lock]) ∧
    joined [(diag PO_SEVERITY_WARNING "").text, (diag PO_SEVERITY_ERROR "b").text] = "\nb" := by
  constructor <;> rfl

/-- C4, amended: for diagnostics d1..dn delivered during one operation, none
fatal before dn, the accumulated `error_list` has n entries in delivery order,
entry k carrying the text of dk, and the accumulated string is the texts joined
by a newline after the empty texts at the front have been dropped; it is the
join of all the texts when the text of d1 is not empty. -/
theorem accumulated_list_and_string (events : List Event) (call : Event) (ds : List XerrorCall)
    (h : ∀ d ∈ ds.dropLast, d.severity ≠ PO_SEVERITY_FATAL_ERROR) :
    ∃ closure exit g, error_section (idle events) call ds = some (closure, exit, g) ∧
      closure.error_list.length = ds.length ∧
      closure.error_list.map (fun t => t.2.2) = ds.map XerrorCall.text ∧
      closure.error_string = joined (dropEmpty (ds.map XerrorCall.text)) ∧
      ((∀ d, ds.head? = some d → d.text ≠ "") →
        closure.error_string = joined (ds.map XerrorCall.text)) := by
  refine ⟨_, _, _, error_section_eq events call ds, ?_, ?_, ?_, ?_⟩
  · simp [accumulated, delivered_eq_self ds h]
  · simp [accumulated, delivered_eq_self ds h, recorded_tuple, Function.comp_def]
  · simp only [accumulated, delivered_eq_self ds h]
    exact foldl_add_text_eq_joined ds
  · intro hne
    simp only [accumulated, delivered_eq_self ds h]
    rw [foldl_add_text_eq_joined ds]
    cases ds with
    | nil => rfl
    | cons d ds =>
      have hd : d.text ≠ "" := hne d rfl
      have hb : (d.text == "") = false := by simpa using hd
      simp [dropEmpty, List.dropWhile_cons, hb]

theorem accumulated_list_and_string_witness :
    ∃ closure exit g,
      error_section (idle []) (.call_po_file_read "a.po")
          [diag PO_SEVERITY_WARNING "a", diag PO_SEVERITY_FATAL_ERROR "b"] =
        some (closure, exit, g) ∧
      closure.error_list.length =
        [diag PO_SEVERITY_WARNING "a", diag PO_SEVERITY_FATAL_ERROR "b"].length ∧
      closure.error_list.map (fun t => t.2.2) =
        [diag PO_SEVERITY_WARNING "a", diag PO_SEVERITY_FATAL_ERROR "b"].map XerrorCall.text ∧
      closure.error_string =
        joined (dropEmpty
          ([diag PO_SEVERITY_WARNING "a", diag PO_SEVERITY_FATAL_ERROR "b"].map
            XerrorCall.text)) ∧
      ((∀ d, [diag PO_SEVERITY_WARNING "a", diag PO_SEVERITY_FATAL_ERROR "b"].head? = some d →
          d.text ≠ "") →
        closure.error_string =
          joined ([diag PO_SEVERITY_WARNING "a", diag PO_SEVERITY_FATAL_ERROR "b"].map
            XerrorCall.text)) :=
  accumulated_list_and_string [] (.call_po_file_read "a.po")
    [diag PO_SEVERITY_WARNING "a", diag PO_SEVERITY_FATAL_ERROR "b"] (by decide)

theorem delivered_eq_nil_iff (xerrors : List XerrorCall) :
    delivered xerrors = [] ↔ xerrors = [] := by
  cases xerrors with
  | nil => simp [delivered]
  | cons d ds =>
    simp only [delivered]
    split <;> simp

/-! ## Reading and writing a PO file -/

theorem exists_delivered_fatal (xerrors : List XerrorCall)
    (h : ∃ d ∈ xerrors, d.severity = PO_SEVERITY_FATAL_ERROR) :
    xerrors.any XerrorCall.fatal = true ∧ delivered xerrors ≠ [] := by
  obtain ⟨d, hm, hs⟩ := h
  refine ⟨?_, ?_⟩
  · rw [List.any_eq_true]
    exact ⟨d, hm, by simp [XerrorCall.fatal, hs]⟩
  · intro hnil
    rw [(delivered_eq_nil_iff xerrors).mp hnil] at hm
    cases hm

/-! ## A fatal diagnostic while reading -/

/-- C7, as stated, fails: when the native reader reports one fatal diagnostic
with an empty text, `PoFile(filename)` on a new object does not raise
`gettextpo.error`; it raises `RuntimeError`, which has no `error_list`. -/
theorem read_fatal_with_empty_text :
    pypo_file_init { pofile := none } (some (some "a.po"))
        (fun _ => { xerrors := [diag PO_SEVERITY_FATAL_ERROR ""], result := some 1 }) (some 2)
        (idle []) =
      some (.raise (.RuntimeError "could not create PoFile object"), { pofile := none },
        idle [.acquire_lock, .call_po_file_read "a.po", fatal_notice, .release_lock]) := by
  rfl

/-- C7, amended: when the native reader reports a fatal diagnostic and one of the
diagnostics delivered up to and including it has a non-empty text,
`PoFile(filename)` raises `gettextpo.error`; its `error_list` is the accumulated
list and has at least one entry, its argument is the accumulated string and is
not empty; `self->pofile` is left as it was. -/
theorem read_fatal_raises (self : PyPoFile) (filename : String)
    (po_file_read : String → NativeRun po_file_t) (po_file_create : po_file_t)
    (events : List Event)
    (hfatal : ∃ d ∈ (po_file_read filename).xerrors, d.severity = PO_SEVERITY_FATAL_ERROR)
    (htext : ∃ d ∈ delivered (po_file_read filename).xerrors, d.text ≠ "") :
    ∃ closure g1,
      error_section (idle events) (.call_po_file_read filename) (po_file_read filename).xerrors =
        some (closure, .longjmp, g1) ∧
      pypo_file_init self (some (some filename)) po_file_read po_file_create (idle events) =
        some (.raise (.gettextpo_error closure.error_string closure.error_list), self, g1) ∧
      1 ≤ closure.error_list.length ∧ closure.error_string ≠ "" := by
  have hf := exists_delivered_fatal _ hfatal
  have hne : (accumulated (po_file_read filename).xerrors).error_string ≠ "" :=
    (foldl_add_text_ne_empty_iff _).mpr htext
  refine ⟨accumulated (po_file_read filename).xerrors,
    idle (events ++ section_events (.call_po_file_read filename) (po_file_read filename).xerrors),
    ?_, ?_, ?_, hne⟩
  · rw [error_section_eq, hf.1]
    rfl
  · rw [pypo_file_init_eq, closure_result_accumulated]
    simp [htext, hf.1]
  · have hlen : (accumulated (po_file_read filename).xerrors).error_list.length =
        (delivered (po_file_read filename).xerrors).length := by simp [accumulated]
    rw [hlen]
    exact List.length_pos.mpr hf.2

theorem read_fatal_raises_witness :
    ∃ closure g1,
      error_section (idle []) (.call_po_file_read "a.po") [fatal_at_line_3] =
        some (closure, .longjmp, g1) ∧
      pypo_file_init { pofile := none } (some (some "a.po"))
          (fun _ => { xerrors := [fatal_at_line_3], result := some 1 }) (some 2) (idle []) =
        some (.raise (.gettextpo_error closure.error_string closure.error_list),
          { pofile := none }, g1) ∧
      1 ≤ closure.error_list.length ∧ closure.error_string ≠ "" :=
  read_fatal_raises { pofile := none } "a.po"
    (fun _ => { xerrors := [fatal_at_line_3], result := some 1 }) (some 2) []
    ⟨fatal_at_line_3, by decide, rfl⟩ ⟨fatal_at_line_3, by decide, by decide⟩

/-! ## Severity tags and locations -/

/-- C8, as stated, fails: a fatal diagnostic reported at `a.po`, line 3,
column 7 is recorded with the tag `"error"` and with 0 in the place of the
location. -/
theorem fatal_recorded_as_error_without_location :
    error_handler_xerror
        { error_closure := some { error_list := [], error_string := "" },
          error_closure_lock := true, events := [] } fatal_at_line_3 =
      some ({ error_closure :=
                some { error_list := [("error", 0, "end-of-line within string")],
                       error_string := "end-of-line within string" },
              error_closure_lock := true, events := [fatal_notice] }, .longjmp) := by
  rfl

/-- C8, amended: every tuple recorded in `error_list` carries the tag
`"warning"` when the native library reported `PO_SEVERITY_WARNING` and the tag
`"error"` for every other severity, `PO_SEVERITY_ERROR` and
`PO_SEVERITY_FATAL_ERROR` alike; its second component is the constant 0,
whatever file name, line and column were reported; its third is the text. -/
theorem recorded_tags_and_location (events : List Event) (call : Event)
    (xerrors : List XerrorCall) :
    ∃ closure exit g, error_section (idle events) call xerrors = some (closure, exit, g) ∧
      closure.error_list =
        (delivered xerrors).map (fun d =>
          (if d.severity = PO_SEVERITY_WARNING then "warning" else "error", (0 : Int), d.text)) ∧
      (∀ t ∈ closure.error_list, (t.1 = "warning" ∨ t.1 = "error") ∧ t.2.1 = 0) ∧
      (∀ g0 c d, g0.error_closure = some c →
        ∃ g1 c1 e, error_handler_xerror g0 d = some (g1, e) ∧ g1.error_closure = some c1 ∧
          c1.error_list = c.error_list ++
            [(if d.severity = PO_SEVERITY_WARNING then "warning"
              else if d.severity = PO_SEVERITY_ERROR then "error"
              else if d.severity = PO_SEVERITY_FATAL_ERROR then "error" else "error",
              (0 : Int), d.text)]) := by
  refine ⟨_, _, _, error_section_eq events call xerrors, rfl, ?_, ?_⟩
  · intro t ht
    simp only [accumulated, List.mem_map] at ht
    obtain ⟨d, _, rfl⟩ := ht
    simp only [recorded_tuple, and_true]
    split
    · exact Or.inl rfl
    · exact Or.inr rfl
  · intro g0 c d h
    refine ⟨_, _, _, error_handler_xerror_eq g0 c d h, rfl, ?_⟩
    simp only [recorded_tuple, ite_self]

/-! ## The lock and the global closure -/

theorem section_events_count (call : Event) (xerrors : List XerrorCall)
    (ha : call ≠ .acquire_lock) (hr : call ≠ .release_lock) :
    (section_events call xerrors).count .acquire_lock = 1 ∧
      (section_events call xerrors).count .release_lock = 1 := by
  have ha1 : (call == Event.acquire_lock) = false := by simpa using ha
  have hr1 : (call == Event.release_lock) = false := by simpa using hr
  unfold section_events
  split <;> simp [List.count_cons, fatal_notice, ha1, hr1]

theorem operation_run_idle {σ : Type} (op : Operation σ) (events : List Event) :
    ∃ added, op.run (idle events) = some (idle (events ++ added)) ∧
      added.count .acquire_lock = added.count .release_lock ∧
      added.count .release_lock ≤ 1 := by
  cases op with
  | read self args rd cr =>
    cases args with
    | none => exact ⟨[], by simp [Operation.run, pypo_file_init], by simp⟩
    | some filename =>
      cases filename with
      | none =>
        refine ⟨[.call_po_file_create], ?_, by simp [List.count_cons], by simp [List.count_cons]⟩
        simp only [Operation.run, pypo_file_init, Globals.log, idle]
        split <;> rfl
      | some filename =>
        have hc := section_events_count (.call_po_file_read filename) (rd filename).xerrors
          (by simp) (by simp)
        refine ⟨section_events (.call_po_file_read filename) (rd filename).xerrors, ?_, ?_, ?_⟩
        · simp [Operation.run, pypo_file_init_eq]
        · rw [hc.1, hc.2]
        · rw [hc.2]
  | write self args wr =>
    cases args with
    | none => exact ⟨[], by simp [Operation.run, pypo_file_write], by simp⟩
    | some filename =>
      have hc := section_events_count (.call_po_file_write self.pofile filename)
        (wr self.pofile filename).xerrors (by simp) (by simp)
      refine ⟨section_events (.call_po_file_write self.pofile filename)
        (wr self.pofile filename).xerrors, ?_, ?_, ?_⟩
      · simp [Operation.run, pypo_file_write_eq]
      · rw [hc.1, hc.2]
      · rw [hc.2]
  | check_format L self chk s =>
    by_cases hskip : L.po_message_msgid s self.msg = none ∨
        (L.po_message_msgid s self.msg).map strlen = some 0 ∨
        L.po_message_msgstr s self.msg = none ∨
        (L.po_message_msgstr s self.msg).map strlen = some 0
    · refine ⟨[], ?_, by simp⟩
      simp only [Operation.run, pypo_message_check_format, if_pos hskip, Option.map_some',
        List.append_nil]
    · have hc := section_events_count (.call_po_message_check_format self.msg)
        (chk self.msg).xerrors (by simp) (by simp)
      refine ⟨section_events (.call_po_message_check_format self.msg) (chk self.msg).xerrors,
        ?_, ?_, ?_⟩
      · simp only [Operation.run, pypo_message_check_format, hskip, if_false, error_section_eq,
          Option.map_some']
      · rw [hc.1, hc.2]
      · rw [hc.2]

theorem run_all_idle {σ : Type} (ops : List (Operation σ)) (events : List Event) :
    ∃ added, run_all ops (idle events) = some (idle (events ++ added)) ∧
      added.count .acquire_lock = added.count .release_lock := by
  induction ops generalizing events with
  | nil => exact ⟨[], by simp [run_all], rfl⟩
  | cons op ops ih =>
    obtain ⟨a1, h1, c1, _⟩ := operation_run_idle op events
    obtain ⟨a2, h2, c2⟩ := ih (events ++ a1)
    refine ⟨a1 ++ a2, ?_, ?_⟩
    · simp only [run_all, h1, h2, List.append_assoc]
    · simp only [List.count_append, c1, c2]

theorem deliver_keeps_closure (ds : List XerrorCall) (g : Globals) (c : ErrorClosure)
    (h : g.error_closure = some c) :
    ∃ g1 c1 e, deliver g ds = some (g1, e) ∧ g1.error_closure = some c1 :=
  ⟨_, _, _, deliver_eq ds g c h, rfl⟩

theorem delivered_append_fatal (pre post : List XerrorCall) (f : XerrorCall)
    (hpre : ∀ d ∈ pre, d.severity ≠ PO_SEVERITY_FATAL_ERROR)
    (hf : f.severity = PO_SEVERITY_FATAL_ERROR) :
    delivered (pre ++ f :: post) = pre ++ [f] ∧
      (pre ++ f :: post).any XerrorCall.fatal = true := by
  have hff : f.fatal = true := by simp [XerrorCall.fatal, hf]
  refine ⟨?_, by simp [hff]⟩
  induction pre with
  | nil => simp [delivered, hff]
  | cons d ds ih =>
    have hd : d.fatal = false := by
      have := hpre d (by simp)
      simpa [XerrorCall.fatal] using this
    simp only [List.cons_append, delivered, hd, Bool.false_eq_true, if_false, List.cons.injEq,
      true_and]
    exact ih (fun x hx => hpre x (by simp [hx]))

/-! ## A fatal diagnostic aborts the operation -/

/-- C9, as stated, fails: when the only diagnostic of `write` is fatal and has
an empty text, it is recorded in the list and the native function is left by
`longjmp`, but no error is raised: `write` returns `None` and the list is
dropped. -/
theorem write_fatal_with_empty_text :
    error_section (idle []) (.call_po_file_write (some 1) "a.po")
        [diag PO_SEVERITY_FATAL_ERROR ""] =
      some ({ error_list := [("error", 0, "")], error_string := "" }, .longjmp,
        idle [.acquire_lock, .call_po_file_write (some 1) "a.po", fatal_notice,
          .release_lock]) ∧
    pypo_file_write { pofile := some 1 } (some "a.po")
        (fun _ _ => { xerrors := [diag PO_SEVERITY_FATAL_ERROR ""], result := () }) (idle []) =
      some (.ok (),
        idle [.acquire_lock, .call_po_file_write (some 1) "a.po", fatal_notice,
          .release_lock]) := by
  constructor <;> rfl

/-- C9, amended: in read, write and `check_format`, a fatal diagnostic ends the
native function at once.  The handler records it in the list and in the string
and then leaves by `longjmp`; for a warning or an error it records the
diagnostic and returns, and the native function goes on with its next
diagnostic.  With diagnostics `pre`, then the fatal `f`, then `post`, the
accumulated list is that of `pre` and `f`, its last entry the one of `f`, and
nothing of `post` is recorded.  The operation raises `gettextpo.error` with that
string and that list whenever one of the recorded texts is not empty. -/
theorem fatal_aborts_operation {σ : Type} (pre post : List XerrorCall) (f : XerrorCall)
    (events : List Event)
    (hpre : ∀ d ∈ pre, d.severity ≠ PO_SEVERITY_FATAL_ERROR)
    (hf : f.severity = PO_SEVERITY_FATAL_ERROR) :
    (∀ g c, g.error_closure = some c →
      error_handler_xerror g f =
        some ({ error_closure :=
                  some ⟨c.error_list ++ [recorded_tuple f], add_text c.error_string f⟩,
                error_closure_lock := g.error_closure_lock,
                events := g.events ++ [fatal_notice] }, .longjmp)) ∧
    (∀ g c d rest, d.severity ≠ PO_SEVERITY_FATAL_ERROR → g.error_closure = some c →
      error_handler_xerror g d =
        some ({ error_closure :=
                  some ⟨c.error_list ++ [recorded_tuple d], add_text c.error_string d⟩,
                error_closure_lock := g.error_closure_lock, events := g.events }, .returned) ∧
      deliver g (d :: rest) =
        deliver { error_closure :=
                    some ⟨c.error_list ++ [recorded_tuple d], add_text c.error_string d⟩,
                  error_closure_lock := g.error_closure_lock, events := g.events } rest) ∧
    (∀ call,
      error_section (idle events) call (pre ++ f :: post) =
        some ({ error_list := (pre ++ [f]).map recorded_tuple,
                error_string := (pre ++ [f]).foldl add_text "" }, .longjmp,
          idle (events ++ [.acquire_lock, call, fatal_notice, .release_lock])) ∧
      ((pre ++ [f]).map recorded_tuple).getLast? = some (recorded_tuple f)) ∧
    ((∃ d ∈ pre ++ [f], d.text ≠ "") →
      (∀ self filename rd cr, (rd filename).xerrors = pre ++ f :: post →
        pypo_file_init self (some (some filename)) rd cr (idle events) =
          some (.raise (.gettextpo_error ((pre ++ [f]).foldl add_text "")
              ((pre ++ [f]).map recorded_tuple)), self,
            idle (events ++
              [.acquire_lock, .call_po_file_read filename, fatal_notice, .release_lock]))) ∧
      (∀ self filename wr, (wr self.pofile filename).xerrors = pre ++ f :: post →
        pypo_file_write self (some filename) wr (idle events) =
          some (.raise (.gettextpo_error ((pre ++ [f]).foldl add_text "")
              ((pre ++ [f]).map recorded_tuple)),
            idle (events ++
              [.acquire_lock, .call_po_file_write self.pofile filename, fatal_notice,
                .release_lock]))) ∧
      (∀ (L : LibGettextPo σ) self chk s msgid msgstr,
        L.po_message_msgid s self.msg = some msgid → L.po_message_msgstr s self.msg = some msgstr →
        msgid ≠ "" → msgstr ≠ "" → (chk self.msg).xerrors = pre ++ f :: post →
        pypo_message_check_format L self chk s (idle events) =
          some (.raise (.gettextpo_error ((pre ++ [f]).foldl add_text "")
              ((pre ++ [f]).map recorded_tuple)),
            idle (events ++
              [.acquire_lock, .call_po_message_check_format self.msg, fatal_notice,
                .release_lock])))) := by
  have hff : f.fatal = true := by simp [XerrorCall.fatal, hf]
  have hdel := delivered_append_fatal pre post f hpre hf
  have hacc : accumulated (pre ++ f :: post) =
      { error_list := (pre ++ [f]).map recorded_tuple,
        error_string := (pre ++ [f]).foldl add_text "" } := by
    simp only [accumulated, hdel.1]
  have hev : ∀ call, section_events call (pre ++ f :: post) =
      [.acquire_lock, call, fatal_notice, .release_lock] := by
    intro call
    simp only [section_events, hdel.2, if_true]
    rfl
  refine ⟨?_, ?_, ?_, ?_⟩
  · intro g c h
    rw [error_handler_xerror_eq g c f h]
    simp [hff]
  · intro g c d rest hd h
    have hdf : d.fatal = false := by simpa [XerrorCall.fatal] using hd
    have hh : error_handler_xerror g d =
        some ({ error_closure :=
                  some ⟨c.error_list ++ [recorded_tuple d], add_text c.error_string d⟩,
                error_closure_lock := g.error_closure_lock, events := g.events },
              .returned) := by
      rw [error_handler_xerror_eq g c d h]
      simp [hdf]
    refine ⟨hh, ?_⟩
    rw [deliver, hh]
  · intro call
    refine ⟨?_, by simp⟩
    rw [error_section_eq, hacc, hev, hdel.2]
    rfl
  · intro htext
    have hres : closure_result (accumulated (pre ++ f :: post)) =
        .raise (.gettextpo_error ((pre ++ [f]).foldl add_text "")
          ((pre ++ [f]).map recorded_tuple)) := by
      rw [closure_result_accumulated, hdel.1, if_pos htext, hacc]
    refine ⟨?_, ?_, ?_⟩
    · intro self filename rd cr hx
      rw [pypo_file_init_eq, hx, hres, hev, hdel.2]
      simp
    · intro self filename wr hx
      rw [pypo_file_write_eq, hx, hres, hev]
    · intro L self chk s msgid msgstr hid hstr hid0 hstr0 hx
      rw [pypo_message_check_format_eq L self chk s events msgid msgstr hid hstr hid0 hstr0,
        hx, hres, hev]

theorem fatal_aborts_operation_witness :
    (∀ d ∈ [diag PO_SEVERITY_WARNING "w"], d.severity ≠ PO_SEVERITY_FATAL_ERROR) ∧
    fatal_at_line_3.severity = PO_SEVERITY_FATAL_ERROR ∧
    error_section (idle []) (.call_po_file_write (some 1) "a.po")
        ([diag PO_SEVERITY_WARNING "w"] ++ fatal_at_line_3 :: [diag PO_SEVERITY_ERROR "late"]) =
      some ({ error_list :=
                ([diag PO_SEVERITY_WARNING "w"] ++ [fatal_at_line_3]).map recorded_tuple,
              error_string :=
                ([diag PO_SEVERITY_WARNING "w"] ++ [fatal_at_line_3]).foldl add_text "" },
        .longjmp,
        idle ([] ++ [.acquire_lock, .call_po_file_write (some 1) "a.po", fatal_notice,
          .release_lock])) ∧
    ([diag PO_SEVERITY_WARNING "w"] ++ [fatal_at_line_3]).map recorded_tuple =
      [("warning", 0, "w"), ("error", 0, "end-of-line within string")] ∧
    ([diag PO_SEVERITY_WARNING "w"] ++ [fatal_at_line_3]).foldl add_text "" =
      "w\nend-of-line within string" :=
  ⟨by decide, rfl,
   ((@fatal_aborts_operation NativeHeap [diag PO_SEVERITY_WARNING "w"]
      [diag PO_SEVERITY_ERROR "late"] fatal_at_line_3 [] (by decide) rfl).2.2.1
      (.call_po_file_write (some 1) "a.po")).1,
   rfl, rfl⟩

/-! ## The lock and `error_closure` around every operation -/

/-- C10: started with the lock free and `error_closure` unset, each of
`PoFile(filename)`, `write` and `check_format` returns, on every path (native
function run to its end or left by `longjmp`, error raised or not), with the
lock free and `error_closure` `NULL` again, having taken the lock once and
released it once (`check_format` on a message without msgid or msgstr takes no
lock at all).  So every sequence of such calls, whatever their arguments, ends
with the lock free and `error_closure` unset.  The handler fails only with
`error_closure == NULL`, which never happens inside an operation: the pointer
stays set through every delivery. -/
theorem lock_released_and_closure_reset {σ : Type} (events : List Event) :
    (∀ self filename rd cr, ∃ ret self1 added,
      pypo_file_init self (some (some filename)) rd cr (idle events) =
        some (ret, self1, idle (events ++ added)) ∧
      added.count .acquire_lock = 1 ∧ added.count .release_lock = 1 ∧
      added.head? = some .acquire_lock ∧ added.getLast? = some .release_lock) ∧
    (∀ self filename wr, ∃ ret added,
      pypo_file_write self (some filename) wr (idle events) = some (ret, idle (events ++ added)) ∧
      added.count .acquire_lock = 1 ∧ added.count .release_lock = 1 ∧
      added.head? = some .acquire_lock ∧ added.getLast? = some .release_lock) ∧
    (∀ (L : LibGettextPo σ) self chk s, ∃ ret added,
      pypo_message_check_format L self chk s (idle events) = some (ret, idle (events ++ added)) ∧
      (added = [] ∨
        (added.count .acquire_lock = 1 ∧ added.count .release_lock = 1 ∧
          added.head? = some .acquire_lock ∧ added.getLast? = some .release_lock))) ∧
    (∀ ops : List (Operation σ), ∃ added,
      run_all ops (idle events) = some (idle (events ++ added)) ∧
      added.count .acquire_lock = added.count .release_lock) ∧
    (∀ g d, error_handler_xerror g d = none ↔ g.error_closure = none) ∧
    (∀ ds g c, g.error_closure = some c →
      ∃ g1 c1 e, deliver g ds = some (g1, e) ∧ g1.error_closure = some c1) := by
  have hends : ∀ call xerrors, (section_events call xerrors).head? = some .acquire_lock ∧
      (section_events call xerrors).getLast? = some .release_lock := by
    intro call xerrors
    unfold section_events
    split <;> simp
  refine ⟨?_, ?_, ?_, fun ops => run_all_idle ops events, error_handler_xerror_eq_none_iff,
    deliver_keeps_closure⟩
  · intro self filename rd cr
    have hc := section_events_count (.call_po_file_read filename) (rd filename).xerrors
      (by simp) (by simp)
    exact ⟨_, _, _, pypo_file_init_eq self filename rd cr events, hc.1, hc.2,
      (hends _ _).1, (hends _ _).2⟩
  · intro self filename wr
    have hc := section_events_count (.call_po_file_write self.pofile filename)
      (wr self.pofile filename).xerrors (by simp) (by simp)
    exact ⟨_, _, pypo_file_write_eq self filename wr events, hc.1, hc.2,
      (hends _ _).1, (hends _ _).2⟩
  · intro L self chk s
    by_cases hskip : L.po_message_msgid s self.msg = none ∨
        (L.po_message_msgid s self.msg).map strlen = some 0 ∨
        L.po_message_msgstr s self.msg = none ∨
        (L.po_message_msgstr s self.msg).map strlen = some 0
    · refine ⟨.ok (), [], ?_, Or.inl rfl⟩
      simp only [pypo_message_check_format, if_pos hskip, List.append_nil]
    · have hc := section_events_count (.call_po_message_check_format self.msg)
        (chk self.msg).xerrors (by simp) (by simp)
      refine ⟨closure_result (accumulated (chk self.msg).xerrors),
        section_events (.call_po_message_check_format self.msg) (chk self.msg).xerrors,
        ?_, Or.inr ⟨hc.1, hc.2, (hends _ _).1, (hends _ _).2⟩⟩
      simp only [pypo_message_check_format, hskip, if_false, error_section_eq]

/-! ## The msgid getter -/

theorem c_str_first_byte (b : String) (h : c_str b ≠ "") :
    first_byte (c_str b) ≠ Char.ofNat 0 := by
  cases b with
  | mk l =>
    cases l with
    | nil => exact absurd rfl h
    | cons c cs =>
      by_cases hc : c = Char.ofNat 0
      · exfalso
        apply h
        simp [c_str, List.takeWhile, hc]
      · simp [c_str, first_byte, List.takeWhile, hc]

theorem takeWhile_takeWhile_self {α : Type} (p : α → Bool) (l : List α) :
    (l.takeWhile p).takeWhile p = l.takeWhile p := by
  induction l with
  | nil => rfl
  | cons a l ih =>
    by_cases ha : p a = true
    · simp [List.takeWhile, ha, ih]
    · simp [List.takeWhile, ha]

theorem c_str_c_str (b : String) : c_str (c_str b) = c_str b := by
  simp only [c_str]
  rw [takeWhile_takeWhile_self]

theorem text_of_c_str (w : PyObject) (pw : String) (h : text_of w = some pw) :
    c_str pw = pw ∧ (pw ≠ "" → first_byte pw ≠ Char.ofNat 0) := by
  cases w with
  | None =>
    cases h
    exact ⟨rfl, fun hne => absurd rfl hne⟩
  | bytes b =>
    cases h
    exact ⟨c_str_c_str b, c_str_first_byte b⟩
  | unicode t =>
    cases h
    exact ⟨c_str_c_str t, c_str_first_byte t⟩
  | surrogate_str n => cases h
  | object n => cases h

/-- C11, as stated, fails: `set_msgid("")` stores the empty string as msgid, and
the msgid getter then returns `None`, the same as for the message of `heap0`
whose msgid was never set. -/
theorem empty_msgid_reads_as_none :
    pypo_message_set_msgid nativeObjects message0 (some (.unicode "")) heap0 (idle []) =
      (.ok (), heap3, idle [.call_setter (some 0) ""]) ∧
    nativeLib.po_message_msgid heap3 (some 0) = some "" ∧
    pypo_message_get_msgid nativeLib message0 heap3 = .None ∧
    nativeLib.po_message_msgid heap0 (some 0) = none ∧
    pypo_message_get_msgid nativeLib message0 heap0 = .None := by
  refine ⟨?_, ?_, ?_, ?_, ?_⟩ <;> rfl

/-- C11, amended: the msgid getter does not tell an empty msgid from an absent
one.  For a message whose msgid is unset (`NULL`) it returns `None`; for a
message whose msgid is the empty string it returns `None` as well, in particular
after `set_msgid(w)` for a `w` that stands for the empty string (`None`, `""`,
`b""`); for a message whose msgid is not empty it returns the msgid as a `bytes`
object, which is not `None`.  The native library is taken to return the msgid
that was set for this message. -/
theorem get_msgid_none_for_empty_and_absent {σ : Type} (L : LibGettextPo σ)
    (A : LibGettextPoObjects σ) (self : PyPoMessage) (s : σ) (g : Globals)
    (law : ∀ v, L.po_message_msgid (A.po_message_set_msgid s self.msg v) self.msg = some v) :
    (L.po_message_msgid s self.msg = none → pypo_message_get_msgid L self s = .None) ∧
    (L.po_message_msgid s self.msg = some "" → pypo_message_get_msgid L self s = .None) ∧
    (∀ msgid, L.po_message_msgid s self.msg = some msgid → first_byte msgid ≠ Char.ofNat 0 →
      pypo_message_get_msgid L self s = .bytes (c_str msgid)) ∧
    (∀ w, text_of w = some "" →
      pypo_message_set_msgid A self (some w) s g =
        (.ok (), A.po_message_set_msgid s self.msg "", g.log (.call_setter self.msg "")) ∧
      pypo_message_get_msgid L self (A.po_message_set_msgid s self.msg "") = .None) ∧
    (∀ w pw, text_of w = some pw → pw ≠ "" →
      pypo_message_set_msgid A self (some w) s g =
        (.ok (), A.po_message_set_msgid s self.msg pw, g.log (.call_setter self.msg pw)) ∧
      pypo_message_get_msgid L self (A.po_message_set_msgid s self.msg pw) = .bytes pw) := by
  refine ⟨?_, ?_, ?_, ?_, ?_⟩
  · intro h
    simp [pypo_message_get_msgid, h]
  · intro h
    simp only [pypo_message_get_msgid, h]
    rfl
  · intro msgid h hne
    simp [pypo_message_get_msgid, h, hne, PyBytes_FromString]
  · intro w hw
    refine ⟨message_set_field_text self w "" _ s g hw, ?_⟩
    simp only [pypo_message_get_msgid, law ""]
    rfl
  · intro w pw hw hne
    refine ⟨message_set_field_text self w pw _ s g hw, ?_⟩
    have hc := text_of_c_str w pw hw
    simp [pypo_message_get_msgid, law pw, hc.2 hne, PyBytes_FromString, hc.1]

theorem get_msgid_none_for_empty_and_absent_witness :
    pypo_message_get_msgid nativeLib message0 heap0 = .None ∧
    pypo_message_get_msgid nativeLib message0
        (nativeObjects.po_message_set_msgid heap0 message0.msg "") = .None ∧
    pypo_message_get_msgid nativeLib message0
        (nativeObjects.po_message_set_msgid heap0 message0.msg "file") = .bytes "file" :=
  ⟨(get_msgid_none_for_empty_and_absent nativeLib nativeObjects message0 heap0 (idle [])
      (fun _ => rfl)).1 rfl,
   ((get_msgid_none_for_empty_and_absent nativeLib nativeObjects message0 heap0 (idle [])
      (fun _ => rfl)).2.2.2.1 (.unicode "") rfl).2,
   ((get_msgid_none_for_empty_and_absent nativeLib nativeObjects message0 heap0 (idle [])
      (fun _ => rfl)).2.2.2.2 (.unicode "file") "file" rfl (by decide)).2⟩

/-! ## Plural forms with an empty msgid_plural -/

/-- C12, as stated, fails: after `set_msgid_plural(None)` the msgid_plural is
present and empty (its getter returns `b""`), and `set_msgstr_plural(1,
"fichiers")` returns `None` and sets the plural translation. -/
theorem set_msgstr_plural_accepts_empty_msgid_plural :
    pypo_message_set_msgid_plural nativeLib message0 (some .None) heap0 (idle []) =
      (.ok (), heap4, idle [.call_setter (some 0) ""]) ∧
    pypo_message_get_msgid_plural nativeLib message0 heap4 = .bytes "" ∧
    pypo_message_set_msgstr_plural nativeLib message0 (some (1, .unicode "fichiers")) heap4
        (idle []) =
      (.ok (),
        { messages := [{ msgid := none, msgid_plural := some "", msgstr := some "",
                         msgstr_plural := ["", "fichiers"] }],
          catalog := [], index := 0 },
        idle [.call_po_message_set_msgstr_plural (some 0) 1 "fichiers"]) := by
  refine ⟨?_, ?_, ?_⟩ <;> rfl

/-- C12, amended: `set_msgstr_plural(i, v)` succeeds only if the msgid_plural of
the message is present (not `NULL`); whether it is empty plays no part.  It
succeeds, too, only for an index in the range of a C `int` and a `v` that is
`None`, `bytes` or a `str` with a UTF-8 encoding.  For a message whose
msgid_plural is present, the empty string included, for every such index `i`
and every such `v`, it returns `None` and hands index `i` and the text of `v` to
`po_message_set_msgstr_plural`. -/
theorem set_msgstr_plural_needs_present_msgid_plural {σ : Type} (L : LibGettextPo σ)
    (self : PyPoMessage) (index : Int) (s : σ) (g : Globals) :
    (∀ v, (pypo_message_set_msgstr_plural L self (some (index, v)) s g).1 = .ok () →
      L.po_message_msgid_plural s self.msg ≠ none ∧ INT_MIN ≤ index ∧ index ≤ INT_MAX ∧
        text_of v ≠ none) ∧
    (∀ v pv msgid_plural, INT_MIN ≤ index → index ≤ INT_MAX →
      L.po_message_msgid_plural s self.msg = some msgid_plural → text_of v = some pv →
      pypo_message_set_msgstr_plural L self (some (index, v)) s g =
        (.ok (), L.po_message_set_msgstr_plural s self.msg index pv,
          g.log (.call_po_message_set_msgstr_plural self.msg index pv))) ∧
    (∀ v pv, INT_MIN ≤ index → index ≤ INT_MAX →
      L.po_message_msgid_plural s self.msg = some "" → text_of v = some pv →
      pypo_message_set_msgstr_plural L self (some (index, v)) s g =
        (.ok (), L.po_message_set_msgstr_plural s self.msg index pv,
          g.log (.call_po_message_set_msgstr_plural self.msg index pv))) := by
  have hmain : ∀ v pv msgid_plural, INT_MIN ≤ index → index ≤ INT_MAX →
      L.po_message_msgid_plural s self.msg = some msgid_plural → text_of v = some pv →
      pypo_message_set_msgstr_plural L self (some (index, v)) s g =
        (.ok (), L.po_message_set_msgstr_plural s self.msg index pv,
          g.log (.call_po_message_set_msgstr_plural self.msg index pv)) := by
    intro v pv msgid_plural hmin hmax hp hv
    exact set_msgstr_plural_of_text L self index v pv s g hmin hmax (by rw [hp]; simp) hv
  refine ⟨?_, hmain, fun v pv hmin hmax hp hv => hmain v pv "" hmin hmax hp hv⟩
  intro v hok
  by_cases hr : index < INT_MIN ∨ INT_MAX < index
  · rw [set_msgstr_plural_out_of_range L self index v s g hr] at hok
    cases hok
  · have hmin : INT_MIN ≤ index := by omega
    have hmax : index ≤ INT_MAX := by omega
    by_cases hnone : L.po_message_msgid_plural s self.msg = none
    · simp [pypo_message_set_msgstr_plural, hr, hnone] at hok
    · refine ⟨hnone, hmin, hmax, ?_⟩
      cases v with
      | None => simp [text_of]
      | bytes b => simp [text_of]
      | unicode t => simp [text_of]
      | surrogate_str n =>
        rw [(set_msgstr_plural_of_other L self index n s g hmin hmax hnone).2] at hok
        cases hok
      | object n =>
        rw [(set_msgstr_plural_of_other L self index n s g hmin hmax hnone).1] at hok
        cases hok

theorem set_msgstr_plural_needs_present_msgid_plural_witness :
    INT_MIN ≤ 0 ∧ (0 : Int) ≤ INT_MAX ∧
    nativeLib.po_message_msgid_plural heap4 message0.msg = some "" ∧
    pypo_message_set_msgstr_plural nativeLib message0 (some (0, .bytes "fichier")) heap4
        (idle []) =
      (.ok (), nativeLib.po_message_set_msgstr_plural heap4 message0.msg 0 "fichier",
        (idle []).log (.call_po_message_set_msgstr_plural message0.msg 0 "fichier")) :=
  ⟨by decide, by decide, rfl,
   (set_msgstr_plural_needs_present_msgid_plural nativeLib message0 0 heap4 (idle [])).2.2
      (.bytes "fichier") "fichier" (by decide) (by decide) rfl rfl⟩

/-! ## Comparison of messages -/

/-- C13, as stated, fails: comparing a `PoMessage` for equality with a `str` is
no error; the comparison function returns `NotImplemented` and sets no
exception. -/
theorem richcmp_with_other_type_is_not_an_error :
    pypo_message_richcmp message0 (.other (.unicode "text")) Py_EQ = .ok .Py_NotImplemented := by
  rfl

/-- C13, amended: for `PoMessage` objects `a` and `b`, `a == b` is `True` exactly
when they wrap the same native handle and `False` otherwise; `a != b` is the
negation; `==` is reflexive and symmetric; messages with different handles are
not equal, whatever fields the native library reports for them; every other
comparison of two messages gives `NotImplemented`.  Comparing a `PoMessage` with
an object of another type is not an error: the function returns
`NotImplemented`, for every comparison, and never sets an exception. -/
theorem richcmp_by_handle (a b : PyPoMessage) (o : PyObject) (other : Operand) (op : Int) :
    (pypo_message_richcmp a (.message b) Py_EQ = .ok .Py_True ↔ a.msg = b.msg) ∧
    (pypo_message_richcmp a (.message b) Py_EQ = .ok .Py_False ↔ a.msg ≠ b.msg) ∧
    (pypo_message_richcmp a (.message b) Py_NE = .ok .Py_True ↔ a.msg ≠ b.msg) ∧
    (pypo_message_richcmp a (.message b) Py_NE = .ok .Py_False ↔ a.msg = b.msg) ∧
    pypo_message_richcmp a (.message a) Py_EQ = .ok .Py_True ∧
    pypo_message_richcmp a (.message b) Py_EQ = pypo_message_richcmp b (.message a) Py_EQ ∧
    (∀ (σ : Type) (L : LibGettextPo σ) (s : σ),
      L.po_message_msgid s a.msg = L.po_message_msgid s b.msg →
      L.po_message_msgid_plural s a.msg = L.po_message_msgid_plural s b.msg →
      L.po_message_msgstr s a.msg = L.po_message_msgstr s b.msg →
      a.msg ≠ b.msg → pypo_message_richcmp a (.message b) Py_EQ = .ok .Py_False) ∧
    (op ≠ Py_EQ → op ≠ Py_NE →
      pypo_message_richcmp a (.message b) op = .ok .Py_NotImplemented) ∧
    pypo_message_richcmp a (.other o) op = .ok .Py_NotImplemented ∧
    (∀ exc, pypo_message_richcmp a other op ≠ .raise exc) := by
  have hne : Py_NE ≠ Py_EQ := by decide
  refine ⟨?_, ?_, ?_, ?_, ?_, ?_, ?_, ?_, rfl, ?_⟩
  · by_cases h : a.msg = b.msg <;> simp [pypo_message_richcmp, h]
  · by_cases h : a.msg = b.msg <;> simp [pypo_message_richcmp, h]
  · by_cases h : a.msg = b.msg <;> simp [pypo_message_richcmp, h, hne]
  · by_cases h : a.msg = b.msg <;> simp [pypo_message_richcmp, h, hne]
  · simp [pypo_message_richcmp]
  · by_cases h : a.msg = b.msg
    · simp [pypo_message_richcmp, h]
    · have h2 : ¬ b.msg = a.msg := fun hh => h hh.symm
      simp [pypo_message_richcmp, h, h2]
  · intro σ L s _ _ _ h
    simp [pypo_message_richcmp, h]
  · intro h1 h2
    simp [pypo_message_richcmp, h1, h2]
  · intro exc
    cases other with
    | other o2 => simp [pypo_message_richcmp]
    | message m =>
      simp only [pypo_message_richcmp]
      split
      · simp
      · split <;> simp

theorem richcmp_by_handle_witness :
    nativeLib.po_message_msgid heap5 (some 0) = nativeLib.po_message_msgid heap5 (some 1) ∧
    pypo_message_richcmp { msg := some 0, pofile := none }
        (.message { msg := some 1, pofile := none }) Py_EQ = .ok .Py_False ∧
    pypo_message_richcmp { msg := some 0, pofile := none }
        (.message { msg := some 1, pofile := none }) Py_LT = .ok .Py_NotImplemented :=
  ⟨rfl,
   (richcmp_by_handle { msg := some 0, pofile := none } { msg := some 1, pofile := none }
      .None (.other .None) Py_LT).2.2.2.2.2.2.1 NativeHeap nativeLib heap5 rfl rfl rfl
      (by decide),
   (richcmp_by_handle { msg := some 0, pofile := none } { msg := some 1, pofile := none }
      .None (.other .None) Py_LT).2.2.2.2.2.2.2.1 (by decide) (by decide)⟩

/-! ## Owners of messages -/

theorem list_set_split {α : Type} (l : List α) (i : Nat) (a : α) (h : l.get? i = some a) :
    ∃ pre post, l = pre ++ a :: post ∧ ∀ b, l.set i b = pre ++ b :: post := by
  induction l generalizing i with
  | nil => simp at h
  | cons x xs ih =>
    cases i with
    | zero =>
      simp at h
      subst h
      exact ⟨[], xs, rfl, fun b => rfl⟩
    | succ n =>
      simp at h
      obtain ⟨pre, post, h1, h2⟩ := ih n (by simpa using h)
      exact ⟨x :: pre, post, congrArg (fun t => x :: t) h1, fun b => by simp [h2]⟩

theorem object_split {σ : Type} (w : World σ) (i : Nat) (m : PyPoMessage)
    (h : w.object i = some m) :
    ∃ pre post, w.objects = pre ++ some m :: post ∧
      ∀ o, w.objects.set i o = pre ++ o :: post := by
  have h1 : w.objects.get? i = some (some m) := by
    unfold World.object at h
    cases hg : w.objects.get? i with
    | none =>
      rw [hg] at h
      cases h
    | some o =>
      rw [hg] at h
      simp only [Option.bind, id] at h
      rw [h]
  exact list_set_split w.objects i (some m) h1

theorem ownerless_handles_split (pre post : List (Option PyPoMessage))
    (o : Option PyPoMessage) (n : Nat) :
    (ownerless_handles (pre ++ o :: post)).count n =
      (ownerless_handles pre).count n + (if ownerless_handle o = some n then 1 else 0) +
        (ownerless_handles post).count n := by
  unfold ownerless_handles
  rw [List.filterMap_append, List.filterMap_cons]
  cases ho : ownerless_handle o with
  | none => simp
  | some k =>
    by_cases hk : k = n
    · subst hk
      simp [List.count_cons]
      omega
    · simp [List.count_cons, hk]

theorem ownerless_handles_concat (l : List (Option PyPoMessage)) (o : Option PyPoMessage)
    (n : Nat) :
    (ownerless_handles (l ++ [o])).count n =
      (ownerless_handles l).count n + (if ownerless_handle o = some n then 1 else 0) := by
  have h := ownerless_handles_split l [] o n
  simpa [ownerless_handles] using h

theorem inserted_handles_concat (events : List Event) (e : Event) (n : Nat) :
    (inserted_handles (events ++ [e])).count n =
      (inserted_handles events).count n + (if inserted_handle e = some n then 1 else 0) := by
  unfold inserted_handles
  rw [List.filterMap_append]
  cases he : inserted_handle e with
  | none => simp [List.filterMap_cons, he]
  | some k =>
    by_cases hk : k = n
    · subst hk
      simp [List.filterMap_cons, he, List.count_cons]
    · simp [List.filterMap_cons, he, List.count_cons, hk]

theorem fresh_count {σ : Type} (w : World σ) (n : Nat) (h : w.fresh (some n) = true) :
    (ownerless_handles w.objects).count n = 0 ∧
      (inserted_handles w.globals.events).count n = 0 := by
  simp only [World.fresh, decide_eq_true_eq, List.mem_append, not_or] at h
  exact ⟨List.count_eq_zero.mpr h.1, List.count_eq_zero.mpr h.2⟩

theorem message_set_field_globals {σ : Type} (self : PyPoMessage) (args : Option PyObject)
    (setter : σ → po_message_t → String → σ) (s : σ) (g : Globals) :
    (_message_set_field self args setter s g).2.2 = g ∨
      ∃ v, (_message_set_field self args setter s g).2.2 = g.log (.call_setter self.msg v) := by
  unfold _message_set_field
  cases args with
  | none => exact Or.inl rfl
  | some object =>
    simp only
    split
    · exact Or.inr ⟨_, rfl⟩
    · split
      · exact Or.inl rfl
      · split
        · exact Or.inl rfl
        · exact Or.inr ⟨_, rfl⟩

theorem set_msgstr_plural_globals {σ : Type} (L : LibGettextPo σ) (self : PyPoMessage)
    (args : Option (Int × PyObject)) (s : σ) (g : Globals) :
    (pypo_message_set_msgstr_plural L self args s g).2.2 = g ∨
      ∃ index v, (pypo_message_set_msgstr_plural L self args s g).2.2 =
        g.log (.call_po_message_set_msgstr_plural self.msg index v) := by
  unfold pypo_message_set_msgstr_plural
  cases args with
  | none => exact Or.inl rfl
  | some a =>
    obtain ⟨index, object⟩ := a
    simp only
    split
    · exact Or.inl rfl
    · split
      · exact Or.inl rfl
      · split
        · exact Or.inr ⟨_, _, rfl⟩
        · split
          · exact Or.inl rfl
          · split
            · exact Or.inl rfl
            · exact Or.inr ⟨_, _, rfl⟩

theorem check_format_idle {σ : Type} (L : LibGettextPo σ) (self : PyPoMessage)
    (chk : po_message_t → NativeRun Unit) (s : σ) (events : List Event) :
    ∃ r added, pypo_message_check_format L self chk s (idle events) =
        some (r, idle (events ++ added)) ∧
      ∀ n, (inserted_handles (events ++ added)).count n = (inserted_handles events).count n := by
  by_cases hskip : L.po_message_msgid s self.msg = none ∨
      (L.po_message_msgid s self.msg).map strlen = some 0 ∨
      L.po_message_msgstr s self.msg = none ∨
      (L.po_message_msgstr s self.msg).map strlen = some 0
  · refine ⟨.ok (), [], ?_, fun n => by simp⟩
    simp only [pypo_message_check_format, if_pos hskip, List.append_nil]
  · refine ⟨closure_result (accumulated (chk self.msg).xerrors),
      section_events (.call_po_message_check_format self.msg) (chk self.msg).xerrors, ?_, ?_⟩
    · simp only [pypo_message_check_format, hskip, if_false, error_section_eq]
    · intro n
      unfold inserted_handles section_events
      split <;> simp [List.filterMap_append, List.filterMap_cons, inserted_handle, fatal_notice]

theorem consistent_of_globals {σ : Type} (w : World σ) (objects : List (Option PyPoMessage))
    (native : σ) (g : Globals) (events : List Event) (hg : w.globals = idle events)
    (hobj : ∀ n, (ownerless_handles objects).count n ≤ (ownerless_handles w.objects).count n)
    (hc : w.consistent)
    (h : g = w.globals ∨ ∃ e, g = w.globals.log e ∧ inserted_handle e = none) :
    World.consistent { objects := objects, native := native, globals := g } := by
  obtain ⟨hcount, _⟩ := hc
  rcases h with h | ⟨e, h, he⟩
  · refine ⟨fun n => ?_, events, by rw [h, hg]⟩
    have h1 := hcount n
    have h2 := hobj n
    simp only [h]
    omega
  · refine ⟨fun n => ?_, events ++ [e], by rw [h, hg]; rfl⟩
    have h1 := hcount n
    have h2 := hobj n
    have h3 : (inserted_handles (w.globals.log e).events).count n =
        (inserted_handles w.globals.events).count n := by
      simp only [Globals.log]
      rw [inserted_handles_concat, he]
      simp
    simp only [h, h3]
    omega

theorem pypo_message_init_object {σ : Type} (A : LibGettextPoObjects σ) (m : PyPoMessage)
    (s : σ) :
    (pypo_message_init A m (some ()) s).2.1 =
      { msg := (A.po_message_create s).1, pofile := m.pofile } := by
  unfold pypo_message_init
  simp only
  split <;> rfl

theorem step_consistent {σ : Type} (L : LibGettextPo σ) (A : LibGettextPoObjects σ)
    (a : Action σ) (w : World σ) (hc : w.consistent) (hf : fresh_action A a w = true) :
    ∃ w1, step L A a w = some w1 ∧ w1.consistent := by
  have hc0 := hc
  obtain ⟨hcount, events, hg⟩ := hc
  cases a with
  | create =>
    cases hcr : (A.po_message_create w.native).1 with
    | none =>
      refine ⟨{ objects := w.objects, native := (A.po_message_create w.native).2,
                globals := w.globals }, ?_, hcount, events, hg⟩
      simp [step, pypo_message_init, hcr, pypo_message_dealloc]
    | some k =>
      have hfresh : w.fresh (some k) = true := by simpa [fresh_action, hcr] using hf
      have hz := fresh_count w k hfresh
      refine ⟨{ objects := w.objects ++ [some ⟨some k, none⟩],
                native := (A.po_message_create w.native).2, globals := w.globals },
        ?_, ?_, events, hg⟩
      · simp [step, pypo_message_init, hcr]
      · intro n
        have h1 := hcount n
        simp only [ownerless_handles_concat, ownerless_handle, if_true, Option.some.injEq]
        by_cases hk : k = n
        · subst hk
          simp only [if_true]
          omega
        · simp only [hk, if_false]
          omega
  | init i =>
    cases hobj : w.object i with
    | none => exact ⟨w, by simp [step, hobj], hc0⟩
    | some m =>
      obtain ⟨pre, post, hsplit, hset⟩ := object_split w i m hobj
      refine ⟨{ objects := w.objects.set i (some (pypo_message_init A m (some ()) w.native).2.1),
                native := (pypo_message_init A m (some ()) w.native).2.2,
                globals := w.globals }, by simp only [step, hobj], ?_, events, hg⟩
      intro n
      have h1 := hcount n
      rw [hsplit, ownerless_handles_split] at h1
      simp only [pypo_message_init_object, hset]
      rw [ownerless_handles_split]
      cases hp : m.pofile with
      | some q =>
        simp only [ownerless_handle, hp, reduceCtorEq, if_false] at h1 ⊢
        exact h1
      | none =>
        cases hcr : (A.po_message_create w.native).1 with
        | none =>
          simp only [ownerless_handle, hp, if_true, reduceCtorEq, if_false] at h1 ⊢
          omega
        | some k =>
          have hfresh : w.fresh (some k) = true := by
            simpa [fresh_action, hcr, hobj] using hf
          have hz := fresh_count w k hfresh
          rw [hsplit, ownerless_handles_split] at hz
          simp only [ownerless_handle, hp, if_true, Option.some.injEq] at h1 hz ⊢
          by_cases hk : k = n
          · subst hk
            simp only [if_true]
            omega
          · simp only [hk, if_false]
            omega
  | next self self_ptr =>
    cases hn : (A.po_next_message w.native self.iter).1 with
    | none =>
      refine ⟨{ objects := w.objects, native := (A.po_next_message w.native self.iter).2,
                globals := w.globals }, ?_, hcount, events, hg⟩
      simp [step, pypo_message_iterator_next, hn]
    | some k =>
      refine ⟨{ objects := w.objects ++ [some ⟨some k, some self_ptr⟩],
                native := (A.po_next_message w.native self.iter).2, globals := w.globals },
        ?_, ?_, events, hg⟩
      · simp [step, pypo_message_iterator_next, hn]
      · intro n
        have h1 := hcount n
        simp only [ownerless_handles_concat, ownerless_handle, reduceCtorEq, if_false]
        omega
  | insert self i =>
    cases hobj : w.object i with
    | none => exact ⟨w, by simp [step, hobj], hc0⟩
    | some m =>
      obtain ⟨pre, post, hsplit, hset⟩ := object_split w i m hobj
      cases hp : m.pofile with
      | some q =>
        refine ⟨w, ?_, hc0⟩
        have hself : w.objects.set i (some m) = w.objects := by rw [hset, hsplit]
        simp [step, hobj, pypo_message_iterator_insert, hp, hself]
      | none =>
        refine ⟨{ objects := w.objects.set i (some { msg := m.msg, pofile := some self.pofile }),
                  native := L.po_message_insert w.native self.iter m.msg,
                  globals := w.globals.log (.call_po_message_insert self.iter m.msg) },
          ?_, ?_, events ++ [.call_po_message_insert self.iter m.msg], by rw [hg]; rfl⟩
        · simp [step, hobj, pypo_message_iterator_insert, hp]
        · intro n
          have h1 := hcount n
          rw [hsplit, ownerless_handles_split] at h1
          simp only [hset, Globals.log]
          rw [ownerless_handles_split, inserted_handles_concat]
          simp only [ownerless_handle, hp, if_true, reduceCtorEq, if_false, inserted_handle]
            at h1 ⊢
          omega
  | set_field i value setter =>
    cases hobj : w.object i with
    | none => exact ⟨w, by simp [step, hobj], hc0⟩
    | some m =>
      refine ⟨{ objects := w.objects,
                native := (_message_set_field m (some value) setter w.native w.globals).2.1,
                globals := (_message_set_field m (some value) setter w.native w.globals).2.2 },
        by simp only [step, hobj], ?_⟩
      apply consistent_of_globals w _ _ _ events hg (fun n => le_refl _) hc0
      rcases message_set_field_globals m (some value) setter w.native w.globals
        with h | ⟨v, h⟩
      · exact Or.inl h
      · exact Or.inr ⟨_, h, rfl⟩
  | set_format i format_type value =>
    cases hobj : w.object i with
    | none => exact ⟨w, by simp [step, hobj], hc0⟩
    | some m =>
      refine ⟨{ objects := w.objects,
                native := (pypo_message_set_format A m (some (format_type, value)) w.native).2,
                globals := w.globals },
        by simp only [step, hobj], ?_⟩
      exact consistent_of_globals w _ _ _ events hg (fun n => le_refl _) hc0 (Or.inl rfl)
  | set_msgstr_plural i index value =>
    cases hobj : w.object i with
    | none => exact ⟨w, by simp [step, hobj], hc0⟩
    | some m =>
      refine ⟨{ objects := w.objects,
                native := (pypo_message_set_msgstr_plural L m (some (index, value)) w.native
                  w.globals).2.1,
                globals := (pypo_message_set_msgstr_plural L m (some (index, value)) w.native
                  w.globals).2.2 },
        by simp only [step, hobj], ?_⟩
      apply consistent_of_globals w _ _ _ events hg (fun n => le_refl _) hc0
      rcases set_msgstr_plural_globals L m (some (index, value)) w.native w.globals
        with h | ⟨j, v, h⟩
      · exact Or.inl h
      · exact Or.inr ⟨_, h, rfl⟩
  | check_format i chk =>
    cases hobj : w.object i with
    | none => exact ⟨w, by simp [step, hobj], hc0⟩
    | some m =>
      obtain ⟨r, added, hr, hadd⟩ := check_format_idle L m chk w.native events
      refine ⟨{ objects := w.objects, native := w.native, globals := idle (events ++ added) },
        ?_, ?_, events ++ added, rfl⟩
      · simp only [step, hobj, hg, hr]
      · intro n
        have h1 := hcount n
        rw [hg] at h1
        simp only [idle] at h1 ⊢
        rw [hadd n]
        exact h1
  | dealloc i =>
    cases hobj : w.object i with
    | none => exact ⟨w, by simp [step, hobj], hc0⟩
    | some m =>
      obtain ⟨pre, post, hsplit, hset⟩ := object_split w i m hobj
      refine ⟨{ objects := w.objects.set i none,
                native := (pypo_message_dealloc L A m w.native w.globals).1,
                globals := (pypo_message_dealloc L A m w.native w.globals).2 },
        by simp only [step, hobj], ?_⟩
      cases hp : m.pofile with
      | some q =>
        refine ⟨fun n => ?_, events, by simp [pypo_message_dealloc, hp, hg]⟩
        have h1 := hcount n
        rw [hsplit, ownerless_handles_split] at h1
        simp only [hset, pypo_message_dealloc, hp, ne_eq, reduceCtorEq, not_false_eq_true,
          if_true]
        rw [ownerless_handles_split]
        simp only [ownerless_handle, hp, reduceCtorEq, if_false] at h1 ⊢
        exact h1
      | none =>
        cases hm : m.msg with
        | none =>
          refine ⟨fun n => ?_, events, by simp [pypo_message_dealloc, hp, hm, hg]⟩
          have h1 := hcount n
          rw [hsplit, ownerless_handles_split] at h1
          simp only [hset, pypo_message_dealloc, hp, hm, ne_eq, not_true_eq_false, if_false]
          rw [ownerless_handles_split]
          simp only [ownerless_handle, hp, hm, if_true, reduceCtorEq, if_false] at h1 ⊢
          exact h1
        | some k =>
          refine ⟨fun n => ?_,
            events ++ [.call_po_file_create,
              .call_po_message_insert
                (A.po_message_iterator (A.po_file_create w.native).2
                  (A.po_file_create w.native).1).1 (some k)],
            by simp [pypo_message_dealloc, hp, hm, hg, Globals.log, idle]⟩
          have h1 := hcount n
          rw [hsplit, ownerless_handles_split] at h1
          simp only [hset, pypo_message_dealloc, hp, hm, ne_eq, not_true_eq_false, if_false,
            reduceCtorEq, not_false_eq_true, if_true, Globals.log]
          rw [ownerless_handles_split, inserted_handles_concat, inserted_handles_concat]
          simp only [ownerless_handle, hp, hm, if_true, reduceCtorEq, if_false, inserted_handle]
            at h1 ⊢
          omega

theorem run_consistent {σ : Type} (L : LibGettextPo σ) (A : LibGettextPoObjects σ)
    (acts : List (Action σ)) (w : World σ) (hc : w.consistent)
    (hf : fresh_run L A acts w = true) :
    ∃ w1, run L A acts w = some w1 ∧ w1.consistent := by
  induction acts generalizing w with
  | nil => exact ⟨w, rfl, hc⟩
  | cons a acts ih =>
    simp only [fresh_run, Bool.and_eq_true] at hf
    obtain ⟨w1, h1, hc1⟩ := step_consistent L A a w hc hf.1
    have hf2 : fresh_run L A acts w1 = true := by simpa [h1] using hf.2
    obtain ⟨w2, h2, hc2⟩ := ih w1 hc1 hf2
    exact ⟨w2, by simp only [run, h1, h2], hc2⟩

theorem object_append {σ : Type} (w : World σ) (objects : List (Option PyPoMessage))
    (native : σ) (g : Globals) (j : Nat) (m : PyPoMessage) (h : w.object j = some m) :
    World.object { objects := w.objects ++ objects, native := native, globals := g } j =
      some m := by
  unfold World.object at h ⊢
  cases hg : w.objects.get? j with
  | none =>
    rw [hg] at h
    cases h
  | some o =>
    have hlt : j < w.objects.length := by
      by_contra hge
      have : w.objects.get? j = none := by
        rw [List.get?_eq_getElem?]
        exact List.getElem?_eq_none (by omega)
      rw [this] at hg
      cases hg
    have : (w.objects ++ objects).get? j = w.objects.get? j := by
      simp only [List.get?_eq_getElem?]
      exact List.getElem?_append_left hlt
    simp only [this]
    exact h

theorem object_set {σ : Type} (w : World σ) (native : σ) (g : Globals) (i j : Nat)
    (m : PyPoMessage) (o : PyPoMessage) (h : w.object j = some m)
    (ho : i = j → o.pofile = m.pofile) :
    ∃ m1, World.object { objects := w.objects.set i (some o), native := native, globals := g } j =
        some m1 ∧ m1.pofile = m.pofile := by
  by_cases hij : i = j
  · subst hij
    obtain ⟨pre, post, hsplit, hset⟩ := object_split w i m h
    have hlen : (w.objects.set i (some o)).get? i = some (some o) := by
      have h1 : w.objects.get? i = some (some m) := by
        unfold World.object at h
        cases hg : w.objects.get? i with
        | none =>
          rw [hg] at h
          cases h
        | some x =>
          rw [hg] at h
          simp only [Option.bind, id] at h
          rw [h]
      simp only [List.get?_eq_getElem?] at h1 ⊢
      rw [List.getElem?_set]
      have hlt : i < w.objects.length := by
        by_contra hge
        rw [List.getElem?_eq_none (by omega)] at h1
        cases h1
      simp [hlt]
    refine ⟨o, ?_, ho rfl⟩
    unfold World.object
    simp only [hlen]
    rfl
  · refine ⟨m, ?_, rfl⟩
    unfold World.object at h ⊢
    have : (w.objects.set i (some o)).get? j = w.objects.get? j := by
      simp only [List.get?_eq_getElem?]
      rw [List.getElem?_set]
      simp [hij]
    simp only [this]
    exact h

theorem step_keeps_owner {σ : Type} (L : LibGettextPo σ) (A : LibGettextPoObjects σ)
    (a : Action σ) (w w1 : World σ) (j : Nat) (m : PyPoMessage) (p : Nat)
    (ha : a.is_dealloc = false) (hobj : w.object j = some m) (hp : m.pofile = some p)
    (hstep : step L A a w = some w1) :
    ∃ m1, w1.object j = some m1 ∧ m1.pofile = some p := by
  cases a with
  | create =>
    simp only [step] at hstep
    split at hstep
    · cases hstep
      exact ⟨m, object_append w _ _ _ j m hobj, hp⟩
    · cases hstep
      exact ⟨m, hobj, hp⟩
  | init i =>
    simp only [step] at hstep
    cases hi : w.object i with
    | none =>
      simp only [hi] at hstep
      cases hstep
      exact ⟨m, hobj, hp⟩
    | some mi =>
      simp only [hi] at hstep
      cases hstep
      obtain ⟨m1, h1, h2⟩ := object_set w (pypo_message_init A mi (some ()) w.native).2.2
        w.globals i j m (pypo_message_init A mi (some ()) w.native).2.1 hobj (by
          intro hij
          subst hij
          rw [hi] at hobj
          cases hobj
          rw [pypo_message_init_object])
      exact ⟨m1, h1, h2.trans hp⟩
  | next self self_ptr =>
    simp only [step] at hstep
    split at hstep
    · cases hstep
      exact ⟨m, object_append w _ _ _ j m hobj, hp⟩
    · cases hstep
      exact ⟨m, hobj, hp⟩
  | insert self i =>
    simp only [step] at hstep
    cases hi : w.object i with
    | none =>
      simp only [hi] at hstep
      cases hstep
      exact ⟨m, hobj, hp⟩
    | some mi =>
      simp only [hi] at hstep
      cases hstep
      by_cases hown : mi.pofile = none
      · have hr : (pypo_message_iterator_insert L self (some mi) w.native w.globals).2.1 =
            some { msg := mi.msg, pofile := some self.pofile } := by
          simp [pypo_message_iterator_insert, hown]
        rw [hr]
        obtain ⟨m1, h1, h2⟩ := object_set w
          (pypo_message_iterator_insert L self (some mi) w.native w.globals).2.2.1
          (pypo_message_iterator_insert L self (some mi) w.native w.globals).2.2.2 i j m
          { msg := mi.msg, pofile := some self.pofile } hobj (by
            intro hij
            subst hij
            rw [hi] at hobj
            cases hobj
            rw [hp] at hown
            cases hown)
        exact ⟨m1, h1, h2.trans hp⟩
      · have hr : (pypo_message_iterator_insert L self (some mi) w.native w.globals).2.1 =
            some mi := by
          simp [pypo_message_iterator_insert, hown]
        rw [hr]
        obtain ⟨m1, h1, h2⟩ := object_set w
          (pypo_message_iterator_insert L self (some mi) w.native w.globals).2.2.1
          (pypo_message_iterator_insert L self (some mi) w.native w.globals).2.2.2 i j m
          mi hobj (by
            intro hij
            subst hij
            rw [hi] at hobj
            cases hobj
            rfl)
        exact ⟨m1, h1, h2.trans hp⟩
  | set_field i value setter =>
    simp only [step] at hstep
    split at hstep <;> cases hstep <;> exact ⟨m, hobj, hp⟩
  | set_format i format_type value =>
    simp only [step] at hstep
    split at hstep <;> cases hstep <;> exact ⟨m, hobj, hp⟩
  | set_msgstr_plural i index value =>
    simp only [step] at hstep
    split at hstep <;> cases hstep <;> exact ⟨m, hobj, hp⟩
  | check_format i chk =>
    simp only [step] at hstep
    split at hstep
    · cases hstep
      exact ⟨m, hobj, hp⟩
    · split at hstep
      · cases hstep
      · cases hstep
        exact ⟨m, hobj, hp⟩
  | dealloc i => cases ha

theorem run_keeps_owner {σ : Type} (L : LibGettextPo σ) (A : LibGettextPoObjects σ)
    (acts : List (Action σ)) (w w1 : World σ) (j : Nat) (m : PyPoMessage) (p : Nat)
    (ha : ∀ a ∈ acts, a.is_dealloc = false) (hobj : w.object j = some m)
    (hp : m.pofile = some p) (hrun : run L A acts w = some w1) :
    ∃ m1, w1.object j = some m1 ∧ m1.pofile = some p := by
  induction acts generalizing w m with
  | nil =>
    cases hrun
    exact ⟨m, hobj, hp⟩
  | cons a acts ih =>
    simp only [run] at hrun
    cases hs : step L A a w with
    | none =>
      rw [hs] at hrun
      cases hrun
    | some w2 =>
      rw [hs] at hrun
      obtain ⟨m2, h2, hp2⟩ := step_keeps_owner L A a w w2 j m p (ha a (by simp)) hobj hp hs
      exact ih w2 m2 (fun b hb => ha b (by simp [hb])) h2 hp2 hrun

/-! ## Ownership is set once -/

/-- C14: a message returned by `next()` has its owner set: it is the iterator.
No action on messages other than deallocation clears or replaces a set owner:
after any run of such actions (making, initialising again, iterating, inserting,
setting fields and format flags, checking formats) the object still has the
owner it had.  So
`I.insert(m)` raises `ValueError`, for every iterator `I` and leaving message,
heap and globals as they were, for every owned `m`, hence for every `m` that
`next()` returned and for every `m` that an `insert` accepted.  And in every
program, `po_message_create` returning a new message each time, every native
message is handed to `po_message_insert` at most once, the insertion into the
temporary file on deallocation included; every such program runs to its
end. -/
theorem owner_is_set_once {σ : Type} (L : LibGettextPo σ) (A : LibGettextPoObjects σ)
    (s0 : σ) :
    (∀ self self_ptr s item,
      (pypo_message_iterator_next A self self_ptr s).1 = .ok item →
        item.pofile = some self_ptr) ∧
    (∀ self self_ptr s, (A.po_next_message s self.iter).1 ≠ none →
      (pypo_message_iterator_next A self self_ptr s).1 =
        .ok { msg := (A.po_next_message s self.iter).1, pofile := some self_ptr }) ∧
    (∀ (acts : List (Action σ)) (w w1 : World σ) j m p, (∀ a ∈ acts, a.is_dealloc = false) →
      w.object j = some m → m.pofile = some p → run L A acts w = some w1 →
      ∃ m1, w1.object j = some m1 ∧ m1.pofile = some p) ∧
    (∀ self m s g, m.pofile ≠ none →
      pypo_message_iterator_insert L self (some m) s g =
        (.raise (.ValueError "message already a member of a PO file"), some m, s, g)) ∧
    (∀ self self_ptr s item other s1 g,
      (pypo_message_iterator_next A self self_ptr s).1 = .ok item →
      pypo_message_iterator_insert L other (some item) s1 g =
        (.raise (.ValueError "message already a member of a PO file"), some item, s1, g)) ∧
    (∀ self m s g m1 s1 g1 other s2 g2,
      pypo_message_iterator_insert L self (some m) s g = (.ok (), some m1, s1, g1) →
      pypo_message_iterator_insert L other (some m1) s2 g2 =
        (.raise (.ValueError "message already a member of a PO file"), some m1, s2, g2)) ∧
    (∀ acts, fresh_run L A acts (world0 s0) = true →
      ∃ w, run L A acts (world0 s0) = some w ∧
        ∀ n, (inserted_handles w.globals.events).count n ≤ 1) := by
  have hnext : ∀ self self_ptr s item,
      (pypo_message_iterator_next A self self_ptr s).1 = .ok item →
        item.pofile = some self_ptr := by
    intro self self_ptr s item h
    unfold pypo_message_iterator_next at h
    simp only at h
    split at h
    · cases h
    · cases h
      rfl
  have hins : ∀ (self : PyPoMessageIterator) (m : PyPoMessage) (s : σ) (g : Globals),
      m.pofile ≠ none →
      pypo_message_iterator_insert L self (some m) s g =
        (.raise (.ValueError "message already a member of a PO file"), some m, s, g) := by
    intro self m s g h
    simp [pypo_message_iterator_insert, h]
  refine ⟨hnext, ?_, ?_, hins, ?_, ?_, ?_⟩
  · intro self self_ptr s h
    simp [pypo_message_iterator_next, h]
  · intro acts w w1 j m p ha hobj hp hrun
    exact run_keeps_owner L A acts w w1 j m p ha hobj hp hrun
  · intro self self_ptr s item other s1 g h
    apply hins
    rw [hnext self self_ptr s item h]
    simp
  · intro self m s g m1 s1 g1 other s2 g2 h
    apply hins
    by_cases hown : m.pofile = none
    · simp [pypo_message_iterator_insert, hown] at h
      rw [← h.1]
      simp
    · simp [pypo_message_iterator_insert, hown] at h
  · intro acts hf
    have h0 : (world0 s0).consistent := ⟨fun n => by simp [world0, ownerless_handles,
      inserted_handles, idle], [], rfl⟩
    obtain ⟨w, hw, hc⟩ := run_consistent L A acts (world0 s0) h0 hf
    refine ⟨w, hw, fun n => ?_⟩
    have := hc.1 n
    omega

theorem owner_is_set_once_witness :
    fresh_run nativeLib nativeObjects program0 (world0 heap6) = true ∧
    ((run nativeLib nativeObjects program0 (world0 heap6)).map
        (fun w => (w.objects, inserted_handles w.globals.events)) =
      some ([some { msg := some 0, pofile := some 9 }, none, none], [1, 2])) ∧
    ∃ w, run nativeLib nativeObjects program0 (world0 heap6) = some w ∧
      ∀ n, (inserted_handles w.globals.events).count n ≤ 1 :=
  ⟨rfl, rfl, (owner_is_set_once nativeLib nativeObjects heap6).2.2.2.2.2.2 program0 rfl⟩

end Gettextpo
